import Mathlib

/-!
Backend reconciliation loop (controllers/capabilities/backend_controller.go)

A shallow embedding of `BackendReconciler.Reconcile` and of the functions it
calls in the same file (`reconcile`, `validateSpec`, `removeBackend`,
`fetchTenantProductCRs`).

The collaborators the controller reaches through `r.Client()`,
`controllerhelper`, `helper` and the record's own methods are not part of the
file; they are fields of `Env`.  Reads of the store (`Get`, `List`,
`LookupProviderAccount`) are functions of the current state `σ`; writes and
remote calls return a new state.  Every function of the controller returns,
next to its Go result, the state it leaves and the calls it made, in order
(`Run.trace`).  A nil-pointer dereference is the outcome `Outcome.panicked`.
Logger calls are not modelled.
-/

namespace BackendController

/-! ## Data model -/

/-- One entry of a `field.ErrorList`. -/
structure FieldError where
  ErrType : String
  Field : String
  Detail : String
deriving DecidableEq, Repr

/-- The tag of a `helper.SpecFieldError`.  The controller only names
`helper.InvalidError`; `OrphanError` stands for any other tag. -/
inductive SpecFieldErrorType where
  | InvalidError
  | OrphanError
deriving DecidableEq, Repr

/-- Go `error` values seen by the controller.
`errorf1 format e` is `fmt.Errorf(format, e)` with one `%w` verb,
`errorf2 format v e` is `fmt.Errorf(format, v, e)` with `%v` then `%w`. -/
inductive Err where
  | notFound (msg : String)
  | specField (ErrorType : SpecFieldErrorType) (FieldErrorList : List FieldError)
  | other (msg : String)
  | errorf1 (format : String) (wrapped : Err)
  | errorf2 (format : String) (v : Err) (wrapped : Err)
deriving DecidableEq, Repr

/-- Go `ctrl.Result`; the zero value `ctrl.Result{}` is `{}`. -/
structure Result where
  Requeue : Bool := false
  RequeueAfter : Nat := 0
deriving DecidableEq, Repr

/-- Go `ctrl.Request` (a namespaced name). -/
structure Request where
  Namespace : String
  Name : String
deriving DecidableEq, Repr

structure BackendSpec where
  SystemName : String
  ProviderAccountRef : Option String
deriving DecidableEq, Repr

/-- Field `Status.ID` is a `*int64`: `none` is the nil pointer. -/
structure BackendStatus where
  ID : Option Int
deriving DecidableEq, Repr

/-- The fields of `capabilitiesv1beta1.Backend` the controller reads. -/
structure Backend where
  Namespace : String
  Name : String
  DeletionTimestamp : Option Nat
  Finalizers : List String
  Spec : BackendSpec
  Status : BackendStatus
deriving DecidableEq, Repr

/-- Go `ProductSpec`; `BackendUsages` is a Go map keyed by backend system name,
kept as an association list (the value is the usage's path). -/
structure ProductSpec where
  ProviderAccountRef : Option String
  BackendUsages : List (String × String)
deriving DecidableEq, Repr

structure Product where
  Namespace : String
  Name : String
  Spec : ProductSpec
deriving DecidableEq, Repr

/-- Go `controllerhelper.ProviderAccount`. -/
structure ProviderAccount where
  AdminURLStr : String
  Token : String
deriving DecidableEq, Repr

/-- The client returned by `controllerhelper.PortaClient`. -/
structure ThreescaleAPIClient where
  AdminURL : String
  Token : String
deriving DecidableEq, Repr

/-- The index returned by `controllerhelper.NewBackendAPIRemoteIndex`:
system name to remote ID. -/
structure BackendAPIRemoteIndex where
  entries : List (String × Int)
deriving DecidableEq, Repr

/-- The remote entity returned by the sync (`ThreescaleReconciler.Reconcile`). -/
structure BackendApiEntity where
  ID : Int
deriving DecidableEq, Repr

/-- The arguments `NewBackendStatusReconciler` is built from. -/
structure BackendStatusReconciler where
  backendResource : Backend
  entity : Option BackendApiEntity
  providerAccountHost : String
  syncError : Option Err
deriving DecidableEq, Repr

/-- A call made by the controller, with its outcome. -/
inductive Event where
  | get (key : Request) (err : Option Err)
  | marshalIndent (err : Option Err)
  | lookupProviderAccount (ns : String) (ref : Option String) (err : Option Err)
  | portaClient (err : Option Err)
  | list (ns : String) (err : Option Err)
  | updateProduct (p : Product) (err : Option Err)
  | updateBackend (b : Backend) (err : Option Err)
  | deleteBackendApi (id : Int) (err : Option Err)
  | setDefaults (changed : Bool)
  | validate (errs : List FieldError)
  | newBackendAPIRemoteIndex (err : Option Err)
  | threescaleReconcile (err : Option Err)
  | statusReconcile (res : Result) (err : Option Err)
  | eventf (eventtype : String) (reason : String) (arg : Err)
deriving DecidableEq, Repr

/-- How a Go function ends: it returns, or it panics (nil dereference). -/
inductive Outcome (α : Type) where
  | returned (a : α)
  | panicked (msg : String)
deriving DecidableEq, Repr

/-- What a controller function leaves behind: its Go result, the state after
it, and the calls it made, oldest first. -/
structure Run (σ : Type) (α : Type) where
  result : α
  st : σ
  trace : List Event

/-- The collaborators of the controller. -/
structure Env (σ : Type) where
  /-- Store read `r.Client().Get` of the backend. -/
  get : σ → Request → Except Err Backend
  /-- Verbosity test `reqLogger.V(1).Enabled()`. -/
  debugEnabled : Bool
  /-- Call `json.MarshalIndent(backend, "", "  ")`. -/
  marshalIndent : Backend → Except Err String
  /-- Method `backend.SetDefaults`: the record after defaulting, and whether it changed. -/
  setDefaults : Backend → Backend × Bool
  /-- Method `backendResource.Validate()`. -/
  validate : Backend → List FieldError
  /-- Helper `controllerhelper.LookupProviderAccount(client, namespace, ref, logger)`. -/
  lookupProviderAccount : σ → String → Option String → Except Err ProviderAccount
  /-- Helper `controllerhelper.PortaClient`. -/
  portaClient : ProviderAccount → Except Err ThreescaleAPIClient
  /-- Store read `r.Client().List` of the products of a namespace. -/
  list : σ → String → Except Err (List Product)
  /-- Store write `r.Client().Update` of a product. -/
  updateProduct : σ → Product → Option Err × σ
  /-- Store write `r.Client().Update` of the backend. -/
  updateBackend : σ → Backend → Option Err × σ
  /-- Remote call `threescaleAPIClient.DeleteBackendApi(id)`. -/
  deleteBackendApi : σ → ThreescaleAPIClient → Int → Option Err × σ
  /-- Remote call `controllerhelper.NewBackendAPIRemoteIndex`. -/
  newBackendAPIRemoteIndex : σ → ThreescaleAPIClient → Except Err BackendAPIRemoteIndex × σ
  /-- The sync, `NewThreescaleReconciler(...).Reconcile()`. -/
  threescaleReconcile : σ → Backend → ThreescaleAPIClient → BackendAPIRemoteIndex →
    ProviderAccount → (Option BackendApiEntity × Option Err) × σ
  /-- Status reporting, `statusReconciler.Reconcile()`: computes the status and
  writes it to the store. -/
  statusReconcile : σ → BackendStatusReconciler → (Result × Option Err) × σ

/-! ## Helpers outside the file -/

def backendFinalizer : String := "backend.capabilities.3scale.net/finalizer"

/-- Go `errors.IsNotFound` of k8s.io/apimachinery: the error is a NotFound status. -/
def IsNotFound : Err → Bool
  | .notFound _ => true
  | _ => false

/-- Modelled from the spec: `helper.IsInvalidSpecError` is not in the file.
"SpecFieldError: a classified error tagged Invalid (permanent) vs any other
kind (transient)": an error is Invalid when it is a `SpecFieldError` whose tag is
`InvalidError`. -/
def IsInvalidSpecError : Err → Bool
  | .specField .InvalidError _ => true
  | _ => false

/-- Go `controllerutil.ContainsFinalizer`. -/
def ContainsFinalizer (b : Backend) (finalizer : String) : Bool :=
  b.Finalizers.contains finalizer

/-- Go `controllerutil.AddFinalizer`: appends the token unless it is there. -/
def AddFinalizer (b : Backend) (finalizer : String) : Backend :=
  if b.Finalizers.contains finalizer then b
  else { b with Finalizers := b.Finalizers ++ [finalizer] }

/-- Go `controllerutil.RemoveFinalizer`: drops every occurrence of the token. -/
def RemoveFinalizer (b : Backend) (finalizer : String) : Backend :=
  { b with Finalizers := b.Finalizers.filter (fun f => f != finalizer) }

/-- Modelled from the spec: `controllerhelper.ReconcileFinalizers` is not in the
file.  Finalizer Manager: "EnsurePresent(record, token), EnsureAbsent(record,
token).  Each performs a compare-and-swap update against the store";
"calling EnsurePresent when the token is already present is a no-op that
performs no write".  A record without deletion-timestamp gets the token, a
record with deletion-timestamp loses it; a write is one store `Update`. -/
def ReconcileFinalizers {σ : Type} (env : Env σ) (st : σ) (b : Backend)
    (finalizer : String) : Run σ (Option Err) :=
  if b.DeletionTimestamp.isNone then
    if ContainsFinalizer b finalizer then ⟨none, st, []⟩
    else
      let b1 := AddFinalizer b finalizer
      let r := env.updateBackend st b1
      ⟨r.1, r.2, [Event.updateBackend b1 r.1]⟩
  else
    if ContainsFinalizer b finalizer then
      let b1 := RemoveFinalizer b finalizer
      let r := env.updateBackend st b1
      ⟨r.1, r.2, [Event.updateBackend b1 r.1]⟩
    else ⟨none, st, []⟩

/-- Go `_, ok := m[key]` on a map. -/
def mapHasKey (m : List (String × String)) (key : String) : Bool :=
  m.any (fun kv => kv.1 == key)

/-- Go `delete(m, key)` on a map. -/
def mapDelete (m : List (String × String)) (key : String) : List (String × String) :=
  m.filter (fun kv => kv.1 != key)

/-! ## The controller -/

/-- Method `validateSpec` (lines 191-204): the record's field errors, wrapped as a
`SpecFieldError` tagged `InvalidError` when there are any. -/
def validateSpec {σ : Type} (env : Env σ) (backendResource : Backend) : Option Err :=
  let errors : List FieldError := [] ++ env.validate backendResource
  if errors.length = 0 then none
  else some (Err.specField SpecFieldErrorType.InvalidError errors)

/-- Method `reconcile` (lines 158-189): validation, provider account, remote
client, remote index, sync.  Returns the status reconciler and the error. -/
def reconcile {σ : Type} (env : Env σ) (st : σ) (backendResource : Backend) :
    Run σ (BackendStatusReconciler × Option Err) :=
  let t0 := [Event.validate (env.validate backendResource)]
  match validateSpec env backendResource with
  | some err => ⟨(⟨backendResource, none, "", some err⟩, some err), st, t0⟩
  | none =>
    match env.lookupProviderAccount st backendResource.Namespace
        backendResource.Spec.ProviderAccountRef with
    | .error err =>
      ⟨(⟨backendResource, none, "", some err⟩, some err), st,
        t0 ++ [Event.lookupProviderAccount backendResource.Namespace
          backendResource.Spec.ProviderAccountRef (some err)]⟩
    | .ok providerAccount =>
      let t1 := t0 ++ [Event.lookupProviderAccount backendResource.Namespace
          backendResource.Spec.ProviderAccountRef none]
      match env.portaClient providerAccount with
      | .error err =>
        ⟨(⟨backendResource, none, providerAccount.AdminURLStr, some err⟩, some err), st,
          t1 ++ [Event.portaClient (some err)]⟩
      | .ok threescaleAPIClient =>
        let t2 := t1 ++ [Event.portaClient none]
        match env.newBackendAPIRemoteIndex st threescaleAPIClient with
        | (.error err, st1) =>
          ⟨(⟨backendResource, none, providerAccount.AdminURLStr, some err⟩, some err), st1,
            t2 ++ [Event.newBackendAPIRemoteIndex (some err)]⟩
        | (.ok backendRemoteIndex, st1) =>
          let r := env.threescaleReconcile st1 backendResource threescaleAPIClient
            backendRemoteIndex providerAccount
          ⟨(⟨backendResource, r.1.1, providerAccount.AdminURLStr, r.1.2⟩, r.1.2), r.2,
            t2 ++ [Event.newBackendAPIRemoteIndex none, Event.threescaleReconcile r.1.2]⟩

/-- The loop of `fetchTenantProductCRs` (lines 256-269) over the remaining
items, with `productsList` and the calls made so far. -/
def fetchTenantProductCRsLoop {σ : Type} (env : Env σ) (st : σ)
    (backendProviderAccount : ProviderAccount) (backend : Backend) :
    List Product → List Product → List Event → List Product × List Event
  | [], productsList, tr => (productsList, tr)
  | productCR :: rest, productsList, tr =>
    match env.lookupProviderAccount st productCR.Namespace productCR.Spec.ProviderAccountRef with
    | .error err =>
      fetchTenantProductCRsLoop env st backendProviderAccount backend rest productsList
        (tr ++ [Event.lookupProviderAccount productCR.Namespace
          productCR.Spec.ProviderAccountRef (some err)])
    | .ok productProviderAccount =>
      let tr1 := tr ++ [Event.lookupProviderAccount productCR.Namespace
          productCR.Spec.ProviderAccountRef none]
      if backendProviderAccount.AdminURLStr == productProviderAccount.AdminURLStr then
        if mapHasKey productCR.Spec.BackendUsages backend.Spec.SystemName then
          fetchTenantProductCRsLoop env st backendProviderAccount backend rest
            (productsList ++ [productCR]) tr1
        else fetchTenantProductCRsLoop env st backendProviderAccount backend rest productsList tr1
      else fetchTenantProductCRsLoop env st backendProviderAccount backend rest productsList tr1

/-- Method `fetchTenantProductCRs` (lines 248-272).  The Go result is the pair
(products, error); on error the products are the nil slice. -/
def fetchTenantProductCRs {σ : Type} (env : Env σ) (st : σ) (productsCRsList : List Product)
    (backend : Backend) : Run σ (List Product × Option Err) :=
  match env.lookupProviderAccount st backend.Namespace backend.Spec.ProviderAccountRef with
  | .error err =>
    ⟨([], some err), st,
      [Event.lookupProviderAccount backend.Namespace backend.Spec.ProviderAccountRef (some err)]⟩
  | .ok backendProviderAccount =>
    let r := fetchTenantProductCRsLoop env st backendProviderAccount backend productsCRsList []
      [Event.lookupProviderAccount backend.Namespace backend.Spec.ProviderAccountRef none]
    ⟨(r.1, none), st, r.2⟩

/-- What the loop of `removeBackend` writes for one product (line 232): the
product with the backend's system name deleted from its usages. -/
def detachBackend (productCR : Product) (backend : Backend) : Product :=
  { productCR with
    Spec := { productCR.Spec with
      BackendUsages := mapDelete productCR.Spec.BackendUsages backend.Spec.SystemName } }

/-- The loop of `removeBackend` (lines 231-237): detach and persist each
product; the first failing `Update` ends the function with its error. -/
def removeBackendLoop {σ : Type} (env : Env σ) (backend : Backend) :
    σ → List Product → Run σ (Option Err)
  | st, [] => ⟨none, st, []⟩
  | st, productCR :: rest =>
    let r := env.updateProduct st (detachBackend productCR backend)
    match r.1 with
    | some err => ⟨some err, r.2, [Event.updateProduct (detachBackend productCR backend) (some err)]⟩
    | none =>
      let k := removeBackendLoop env backend r.2 rest
      ⟨k.result, k.st, Event.updateProduct (detachBackend productCR backend) none :: k.trace⟩

/-- Method `removeBackend` (lines 206-246).  The error of `fetchTenantProductCRs`
is overwritten without being read (lines 228-233); `*backend.Status.ID`
(line 240) panics on a nil ID before the remote call is made. -/
def removeBackend {σ : Type} (env : Env σ) (st : σ) (backend : Backend) :
    Run σ (Outcome (Option Err)) :=
  match env.lookupProviderAccount st backend.Namespace backend.Spec.ProviderAccountRef with
  | .error err =>
    ⟨.returned (some err), st,
      [Event.lookupProviderAccount backend.Namespace backend.Spec.ProviderAccountRef (some err)]⟩
  | .ok providerAccount =>
    let t0 := [Event.lookupProviderAccount backend.Namespace backend.Spec.ProviderAccountRef none]
    match env.portaClient providerAccount with
    | .error err => ⟨.returned (some err), st, t0 ++ [Event.portaClient (some err)]⟩
    | .ok threescaleAPIClient =>
      let t1 := t0 ++ [Event.portaClient none]
      match env.list st backend.Namespace with
      | .error err => ⟨.returned (some err), st, t1 ++ [Event.list backend.Namespace (some err)]⟩
      | .ok items =>
        let t2 := t1 ++ [Event.list backend.Namespace none]
        let f := fetchTenantProductCRs env st items backend
        let u := removeBackendLoop env backend f.st f.result.1
        match u.result with
        | some err => ⟨.returned (some err), u.st, t2 ++ f.trace ++ u.trace⟩
        | none =>
          match backend.Status.ID with
          | none =>
            ⟨.panicked "invalid memory address or nil pointer dereference", u.st,
              t2 ++ f.trace ++ u.trace⟩
          | some id =>
            let d := env.deleteBackendApi u.st threescaleAPIClient id
            ⟨.returned d.1, d.2, t2 ++ f.trace ++ u.trace ++ [Event.deleteBackendApi id d.1]⟩

/-- The verbose dump of `Reconcile` (lines 73-79): its error, if any. -/
def debugDump {σ : Type} (env : Env σ) (backend : Backend) : Option Err × List Event :=
  if env.debugEnabled then
    match env.marshalIndent backend with
    | .error err => (some err, [Event.marshalIndent (some err)])
    | .ok _ => (none, [Event.marshalIndent none])
  else (none, [])

/-- The delete path of `Reconcile` (lines 84-94). -/
def deletePath {σ : Type} (env : Env σ) (st : σ) (backend : Backend) :
    Run σ (Outcome (Result × Option Err)) :=
  let rb := removeBackend env st backend
  match rb.result with
  | .panicked msg => ⟨.panicked msg, rb.st, rb.trace⟩
  | .returned (some err) => ⟨.returned ({}, some err), rb.st, rb.trace⟩
  | .returned none =>
    let rf := ReconcileFinalizers env rb.st backend backendFinalizer
    match rf.result with
    | some err => ⟨.returned ({}, some err), rf.st, rb.trace ++ rf.trace⟩
    | none => ⟨.returned ({}, none), rf.st, rb.trace ++ rf.trace⟩

/-- The end of `Reconcile` (lines 123-149): what is returned, and the warning
events recorded, given the sync error and the outcome of the status
reconciler. -/
def decideRequeue (reconcileErr : Option Err) (statusResult : Result)
    (statusUpdateErr : Option Err) : (Result × Option Err) × List Event :=
  match statusUpdateErr with
  | some sErr =>
    match reconcileErr with
    | some rErr =>
      (({}, some (Err.errorf2
        "Failed to sync backend: %v. Failed to update backend status: %w" rErr sErr)), [])
    | none => (({}, some (Err.errorf1 "Failed to update backend status: %w" sErr)), [])
  | none =>
    if statusResult.Requeue then ((statusResult, none), [])
    else
      match reconcileErr with
      | some rErr =>
        if IsInvalidSpecError rErr then
          (({}, none), [Event.eventf "Warning" "Invalid Backend Spec" rErr])
        else (({}, some rErr), [Event.eventf "Warning" "ReconcileError" rErr])
      | none => (({}, none), [])

/-- The sync stage of `Reconcile` (lines 121-149): sync, status reporting,
requeue decision. -/
def syncStage {σ : Type} (env : Env σ) (st : σ) (backend : Backend) :
    Run σ (Outcome (Result × Option Err)) :=
  let rc := reconcile env st backend
  let sr := env.statusReconcile rc.st rc.result.1
  let d := decideRequeue rc.result.2 sr.1.1 sr.1.2
  ⟨.returned d.1, sr.2, rc.trace ++ [Event.statusReconcile sr.1.1 sr.1.2] ++ d.2⟩

/-- Method `BackendReconciler.Reconcile` (lines 53-150). -/
def Reconcile {σ : Type} (env : Env σ) (st : σ) (req : Request) :
    Run σ (Outcome (Result × Option Err)) :=
  match env.get st req with
  | .error err =>
    if IsNotFound err then ⟨.returned ({}, none), st, [Event.get req (some err)]⟩
    else ⟨.returned ({}, some err), st, [Event.get req (some err)]⟩
  | .ok backend =>
    let dump := debugDump env backend
    let t0 := Event.get req none :: dump.2
    match dump.1 with
    | some err => ⟨.returned ({}, some err), st, t0⟩
    | none =>
      if backend.DeletionTimestamp.isSome && ContainsFinalizer backend backendFinalizer then
        let r := deletePath env st backend
        ⟨r.result, r.st, t0 ++ r.trace⟩
      else if backend.DeletionTimestamp.isSome then ⟨.returned ({}, none), st, t0⟩
      else if !ContainsFinalizer backend backendFinalizer then
        let rf := ReconcileFinalizers env st backend backendFinalizer
        match rf.result with
        | some err => ⟨.returned ({}, some err), rf.st, t0 ++ rf.trace⟩
        | none => ⟨.returned ({}, none), rf.st, t0 ++ rf.trace⟩
      else
        let sd := env.setDefaults backend
        let t1 := t0 ++ [Event.setDefaults sd.2]
        if sd.2 then
          let u := env.updateBackend st sd.1
          match u.1 with
          | some err =>
            ⟨.returned ({}, some (Err.errorf1 "Failed setting backend defaults: %w" err)), u.2,
              t1 ++ [Event.updateBackend sd.1 (some err)]⟩
          | none => ⟨.returned ({ Requeue := true }, none), u.2, t1 ++ [Event.updateBackend sd.1 none]⟩
        else
          let r := syncStage env st sd.1
          ⟨r.result, r.st, t1 ++ r.trace⟩

/-! ## Predicates used in the statements -/

/-- The calls that reach the remote management API or build its client or
index: `PortaClient`, `NewBackendAPIRemoteIndex`, the sync, `DeleteBackendApi`. -/
def Event.isRemote : Event → Bool
  | .portaClient _ => true
  | .newBackendAPIRemoteIndex _ => true
  | .threescaleReconcile _ => true
  | .deleteBackendApi _ _ => true
  | _ => false

/-- A store `Update` of a product. -/
def Event.isUpdateProduct : Event → Bool
  | .updateProduct _ _ => true
  | _ => false

/-- A store `Update` of the backend record. -/
def Event.isUpdateBackend : Event → Bool
  | .updateBackend _ _ => true
  | _ => false

/-- A remote `DeleteBackendApi` call. -/
def Event.isDeleteBackendApi : Event → Bool
  | .deleteBackendApi _ _ => true
  | _ => false

/-- A warning event recorded through `r.EventRecorder().Eventf`. -/
def Event.isWarning : Event → Bool
  | .eventf eventtype _ _ => eventtype == "Warning"
  | _ => false

/-- The pass asks for another one: `Requeue` is set or the error is non-nil. -/
def asksAnotherPass : Outcome (Result × Option Err) → Bool
  | .returned (res, err) => res.Requeue || err.isSome
  | .panicked _ => false

/-- The membership test the loop of `fetchTenantProductCRs` is compared with:
the product's own account resolves, its admin URL is the backend account's,
and the product's usages have the backend's system name as a key. -/
def isTenantDependent {σ : Type} (env : Env σ) (st : σ)
    (backendProviderAccount : ProviderAccount) (backend : Backend) (p : Product) : Bool :=
  match env.lookupProviderAccount st p.Namespace p.Spec.ProviderAccountRef with
  | .error _ => false
  | .ok productProviderAccount =>
    backendProviderAccount.AdminURLStr == productProviderAccount.AdminURLStr &&
      mapHasKey p.Spec.BackendUsages backend.Spec.SystemName

/-- The run of the loop of `removeBackend` on the dependents that
`fetchTenantProductCRs` returns for the listed products. -/
def detachDependents {σ : Type} (env : Env σ) (st : σ) (items : List Product) (b : Backend) :
    Run σ (Option Err) :=
  removeBackendLoop env b (fetchTenantProductCRs env st items b).st
    (fetchTenantProductCRs env st items b).result.1

/-- One of the steps of `removeBackend` fails with `err`: its own provider
lookup, the client construction, the product listing, a dependent `Update`, or
the remote `DeleteBackendApi`. -/
def cleanupStepFails {σ : Type} (env : Env σ) (st : σ) (b : Backend) (err : Err) : Prop :=
  env.lookupProviderAccount st b.Namespace b.Spec.ProviderAccountRef = .error err ∨
  (∃ pa, env.lookupProviderAccount st b.Namespace b.Spec.ProviderAccountRef = .ok pa ∧
    env.portaClient pa = .error err) ∨
  (∃ pa c, env.lookupProviderAccount st b.Namespace b.Spec.ProviderAccountRef = .ok pa ∧
    env.portaClient pa = .ok c ∧ env.list st b.Namespace = .error err) ∨
  (∃ p, Event.updateProduct p (some err) ∈ (removeBackend env st b).trace) ∨
  (∃ id, Event.deleteBackendApi id (some err) ∈ (removeBackend env st b).trace)

/-- The calls of the stages after the finalizer check that validate, sync or
report status: `Validate()`, the remote index, the sync, the status
reconciler. -/
def Event.isValidateSyncOrStatus : Event → Bool
  | .validate _ => true
  | .newBackendAPIRemoteIndex _ => true
  | .threescaleReconcile _ => true
  | .statusReconcile _ _ => true
  | _ => false

/-- The calls of defaulting, validation, sync or status reporting. -/
def Event.isLaterStage : Event → Bool
  | .setDefaults _ => true
  | e => e.isValidateSyncOrStatus

/-- A store `Update`, of the backend or of a product. -/
def Event.isStoreUpdate (e : Event) : Bool :=
  e.isUpdateBackend || e.isUpdateProduct

/-- The pass reaches the sync stage (line 121): the record is fetched, the
verbose dump does not fail, the record is not being deleted, carries the
finalizer, and `SetDefaults` reports no change. -/
def reachesSync {σ : Type} (env : Env σ) (st : σ) (req : Request) (b : Backend) : Prop :=
  env.get st req = .ok b ∧ (debugDump env b).1 = none ∧ b.DeletionTimestamp = none ∧
    ContainsFinalizer b backendFinalizer = true ∧ (env.setDefaults b).2 = false

/-- The sync error of a pass that reaches the sync stage: `reconcileErr`, the
error `r.reconcile` returns for the defaulted record (line 121). -/
def syncError {σ : Type} (env : Env σ) (st : σ) (b : Backend) : Option Err :=
  (reconcile env st (env.setDefaults b).1).result.2

/-- What the status reconciler returns in that pass: `statusResult` and
`statusUpdateErr` (line 122). -/
def statusOutcome {σ : Type} (env : Env σ) (st : σ) (b : Backend) : Result × Option Err :=
  (env.statusReconcile (reconcile env st (env.setDefaults b).1).st
    (reconcile env st (env.setDefaults b).1).result.1).1

/-! ## Concrete scenarios -/

/-- The knobs of a concrete run: the stored record, the products of its
namespace, and what each collaborator answers. -/
structure Scenario where
  backend : Backend
  products : List Product
  fieldErrors : List FieldError
  defaultsChange : Bool
  failingProduct : Option String
  deleteErr : Option Err
  backendUpdateErr : Option Err
  syncErr : Option Err
  statusResult : Result
  statusErr : Option Err

/-- The environment of a scenario.  The state counts the writes and remote
calls made so far.  Every account reference resolves, a product to the account
named by its reference, a record without reference to the default account. -/
def Scenario.env (s : Scenario) : Env Nat where
  get := fun _ req =>
    if req.Namespace == s.backend.Namespace && req.Name == s.backend.Name then .ok s.backend
    else .error (Err.notFound "backend")
  debugEnabled := false
  marshalIndent := fun _ => .ok ""
  setDefaults := fun b => (b, s.defaultsChange)
  validate := fun _ => s.fieldErrors
  lookupProviderAccount := fun _ _ ref =>
    match ref with
    | none => .ok ⟨"https://default.example", "t"⟩
    | some "missing" => .error (Err.notFound "secret")
    | some r => .ok ⟨"https://" ++ r ++ ".example", "t"⟩
  portaClient := fun pa => .ok ⟨pa.AdminURLStr, pa.Token⟩
  list := fun _ _ => .ok s.products
  updateProduct := fun n p =>
    (if s.failingProduct = some p.Name then some (Err.other "conflict") else none, n + 1)
  updateBackend := fun n _ => (s.backendUpdateErr, n + 1)
  deleteBackendApi := fun n _ _ => (s.deleteErr, n + 1)
  newBackendAPIRemoteIndex := fun n _ => (.ok ⟨[]⟩, n + 1)
  threescaleReconcile := fun n _ _ _ _ =>
    (match s.syncErr with
      | some e => (none, some e)
      | none => (some ⟨7⟩, none), n + 1)
  statusReconcile := fun n _ => ((s.statusResult, s.statusErr), n + 1)

/-- A synced backend `b` of namespace `ns` in the default account. -/
def liveBackend : Backend :=
  { Namespace := "ns", Name := "b", DeletionTimestamp := none,
    Finalizers := [backendFinalizer],
    Spec := { SystemName := "sys", ProviderAccountRef := none },
    Status := { ID := some 42 } }

/-- The same backend, marked for deletion. -/
def dyingBackend : Backend := { liveBackend with DeletionTimestamp := some 1 }

/-- The same backend before its first pass: no finalizer, never synced. -/
def freshBackend : Backend :=
  { liveBackend with Finalizers := [], Status := { ID := none } }

/-- A product of the default account that uses `sys` and `other`. -/
def productA : Product :=
  { Namespace := "ns", Name := "pa",
    Spec := { ProviderAccountRef := none, BackendUsages := [("sys", "/a"), ("other", "/o")] } }

/-- A product of another account that uses `sys`. -/
def productB : Product :=
  { Namespace := "ns", Name := "pb",
    Spec := { ProviderAccountRef := some "tenant", BackendUsages := [("sys", "/b")] } }

/-- A product of the default account that does not use `sys`. -/
def productC : Product :=
  { Namespace := "ns", Name := "pc",
    Spec := { ProviderAccountRef := none, BackendUsages := [("other", "/c")] } }

/-- A product whose account does not resolve. -/
def productD : Product :=
  { Namespace := "ns", Name := "pd",
    Spec := { ProviderAccountRef := some "missing", BackendUsages := [("sys", "/d")] } }

/-- A second product of the default account that uses `sys`. -/
def productE : Product :=
  { Namespace := "ns", Name := "pe",
    Spec := { ProviderAccountRef := none, BackendUsages := [("sys", "/e")] } }

def demoProducts : List Product := [productA, productB, productC, productD, productE]

def demoRequest : Request := { Namespace := "ns", Name := "b" }

def demoFieldError : FieldError :=
  { ErrType := "FieldValueInvalid", Field := "spec.privateBaseURL", Detail := "invalid URL" }

/-- Everything succeeds, nothing to default, no status change. -/
def quietScenario (b : Backend) : Scenario :=
  { backend := b, products := demoProducts, fieldErrors := [], defaultsChange := false,
    failingProduct := none, deleteErr := none, backendUpdateErr := none, syncErr := none,
    statusResult := {}, statusErr := none }

/-- Two field errors, to observe their order. -/
def twoFieldErrors : List FieldError :=
  [demoFieldError, { ErrType := "FieldValueRequired", Field := "spec.name", Detail := "" }]

/-- The second dependent's `Update` is rejected by the store. -/
def rejectedUpdateScenario : Scenario :=
  { quietScenario dyingBackend with failingProduct := some "pe" }

/-- The remote API rejects the deletion. -/
def rejectedDeleteScenario : Scenario :=
  { quietScenario dyingBackend with deleteErr := some (Err.other "still referenced") }

/-- A record on the delete path whose spec does not validate. -/
def invalidDyingScenario : Scenario :=
  { quietScenario dyingBackend with fieldErrors := [demoFieldError] }

/-- A live record whose spec does not validate. -/
def invalidLiveScenario : Scenario :=
  { quietScenario liveBackend with fieldErrors := [demoFieldError] }

/-- The sync fails with a transport error and the status write asks for a
requeue. -/
def transientRequeueScenario : Scenario :=
  { quietScenario liveBackend with
    syncErr := some (Err.other "connection refused"), statusResult := { Requeue := true } }

/-- The sync fails with a transport error and the status write fails too. -/
def transientStatusFailureScenario : Scenario :=
  { quietScenario liveBackend with
    syncErr := some (Err.other "connection refused"), statusErr := some (Err.other "conflict") }

/-- The sync fails with a transport error, the status is written without
asking for a requeue. -/
def transientScenario : Scenario :=
  { quietScenario liveBackend with syncErr := some (Err.other "connection refused") }

/-- The defaulting pass changes the record. -/
def defaultingScenario : Scenario :=
  { quietScenario liveBackend with defaultsChange := true }

/-- The backend marked for deletion with the finalizer present and never
synced: its status carries no remote ID. -/
def unsyncedDyingBackend : Backend := { dyingBackend with Status := { ID := none } }

/-! ## Theorems -/

/-- C9: `validateSpec` returns nil exactly when the record's `Validate()` list
is empty, and for every non-empty list it returns a `SpecFieldError` tagged
`InvalidError` carrying exactly that list, in the same order. -/
theorem validateSpec_wraps_validate {σ : Type} (env : Env σ) (b : Backend) :
    (validateSpec env b = none ↔ env.validate b = []) ∧
    (∀ errs, env.validate b = errs → errs ≠ [] →
      validateSpec env b = some (Err.specField SpecFieldErrorType.InvalidError errs)) := by
  unfold validateSpec
  cases h : env.validate b with
  | nil => simp
  | cons e es => simp

theorem validateSpec_wraps_validate_witness :
    validateSpec { quietScenario liveBackend with fieldErrors := twoFieldErrors }.env liveBackend
      = some (Err.specField SpecFieldErrorType.InvalidError twoFieldErrors) :=
  (validateSpec_wraps_validate
    { quietScenario liveBackend with fieldErrors := twoFieldErrors }.env liveBackend).2
    twoFieldErrors rfl (by decide)

theorem fetchLoop_products {σ : Type} (env : Env σ) (st : σ) (pa : ProviderAccount)
    (b : Backend) (items acc : List Product) (tr : List Event) :
    (fetchTenantProductCRsLoop env st pa b items acc tr).1
      = acc ++ items.filter (isTenantDependent env st pa b) := by
  induction items generalizing acc tr with
  | nil => simp [fetchTenantProductCRsLoop]
  | cons p rest ih =>
    unfold fetchTenantProductCRsLoop
    cases h : env.lookupProviderAccount st p.Namespace p.Spec.ProviderAccountRef with
    | error err => simp [ih, isTenantDependent, h, List.filter_cons]
    | ok ppa =>
      by_cases h1 : (pa.AdminURLStr == ppa.AdminURLStr) = true
      · by_cases h2 : mapHasKey p.Spec.BackendUsages b.Spec.SystemName = true
        · simp [ih, isTenantDependent, h, h1, h2, List.filter_cons]
        · simp [ih, isTenantDependent, h, h1, h2, List.filter_cons]
      · simp [ih, isTenantDependent, h, h1, List.filter_cons]

/-- C10: when the backend's provider account resolves, `fetchTenantProductCRs`
returns no error and, in list order, exactly the products of the given list
whose own account resolves, whose admin URL equals the backend account's and
whose `BackendUsages` has the backend's system name as a key; a product whose
account lookup fails is left out. -/
theorem fetchTenantProductCRs_filters {σ : Type} (env : Env σ) (st : σ)
    (items : List Product) (b : Backend) (pa : ProviderAccount)
    (hpa : env.lookupProviderAccount st b.Namespace b.Spec.ProviderAccountRef = .ok pa) :
    (fetchTenantProductCRs env st items b).result
        = (items.filter (isTenantDependent env st pa b), none) ∧
    (∀ p, p ∈ (fetchTenantProductCRs env st items b).result.1 ↔
      p ∈ items ∧ ∃ ppa,
        env.lookupProviderAccount st p.Namespace p.Spec.ProviderAccountRef = .ok ppa ∧
        ppa.AdminURLStr = pa.AdminURLStr ∧
        ∃ v, (b.Spec.SystemName, v) ∈ p.Spec.BackendUsages) := by
  have hres : (fetchTenantProductCRs env st items b).result
      = (items.filter (isTenantDependent env st pa b), none) := by
    unfold fetchTenantProductCRs
    simp [hpa, fetchLoop_products]
  refine ⟨hres, ?_⟩
  intro p
  rw [hres]
  simp only [List.mem_filter]
  constructor
  · rintro ⟨hin, hdep⟩
    refine ⟨hin, ?_⟩
    unfold isTenantDependent at hdep
    cases h : env.lookupProviderAccount st p.Namespace p.Spec.ProviderAccountRef with
    | error err => simp [h] at hdep
    | ok ppa =>
      simp only [h, Bool.and_eq_true, beq_iff_eq, mapHasKey, List.any_eq_true] at hdep
      obtain ⟨hurl, kv, hkv, hk⟩ := hdep
      refine ⟨ppa, rfl, hurl.symm, kv.2, ?_⟩
      rw [← hk]
      exact hkv
  · rintro ⟨hin, ppa, hlook, hurl, v, hv⟩
    refine ⟨hin, ?_⟩
    unfold isTenantDependent
    simp only [hlook, Bool.and_eq_true, beq_iff_eq, mapHasKey, List.any_eq_true]
    exact ⟨hurl.symm, (b.Spec.SystemName, v), hv, rfl⟩

theorem fetchTenantProductCRs_filters_witness :
    (fetchTenantProductCRs (quietScenario dyingBackend).env 0 demoProducts dyingBackend).result
      = ([productA, productE], none) :=
  (fetchTenantProductCRs_filters (quietScenario dyingBackend).env 0 demoProducts dyingBackend
    ⟨"https://default.example", "t"⟩ rfl).1.trans (by decide)

theorem fetchLoop_trace {σ : Type} (env : Env σ) (st : σ) (pa : ProviderAccount)
    (b : Backend) (items acc : List Product) (tr : List Event)
    (htr : ∀ e ∈ tr, ∃ ns ref err, e = Event.lookupProviderAccount ns ref err) :
    ∀ e ∈ (fetchTenantProductCRsLoop env st pa b items acc tr).2,
      ∃ ns ref err, e = Event.lookupProviderAccount ns ref err := by
  induction items generalizing acc tr with
  | nil => simpa [fetchTenantProductCRsLoop] using htr
  | cons p rest ih =>
    unfold fetchTenantProductCRsLoop
    have hstep : ∀ oerr, ∀ e ∈ tr ++ [Event.lookupProviderAccount p.Namespace
        p.Spec.ProviderAccountRef oerr], ∃ ns ref err, e = Event.lookupProviderAccount ns ref err := by
      intro oerr e he
      rcases List.mem_append.1 he with h | h
      · exact htr e h
      · exact ⟨_, _, _, List.mem_singleton.1 h⟩
    cases h : env.lookupProviderAccount st p.Namespace p.Spec.ProviderAccountRef with
    | error err => exact ih _ _ (hstep _)
    | ok ppa =>
      dsimp only
      split
      · split
        · exact ih _ _ (hstep _)
        · exact ih _ _ (hstep _)
      · exact ih _ _ (hstep _)

theorem fetchTenantProductCRs_trace {σ : Type} (env : Env σ) (st : σ) (items : List Product)
    (b : Backend) :
    ∀ e ∈ (fetchTenantProductCRs env st items b).trace,
      ∃ ns ref err, e = Event.lookupProviderAccount ns ref err := by
  unfold fetchTenantProductCRs
  cases h : env.lookupProviderAccount st b.Namespace b.Spec.ProviderAccountRef with
  | error err =>
    intro e he
    exact ⟨_, _, _, List.mem_singleton.1 he⟩
  | ok pa =>
    apply fetchLoop_trace
    intro e he
    exact ⟨_, _, _, List.mem_singleton.1 he⟩

theorem removeBackendLoop_trace {σ : Type} (env : Env σ) (b : Backend) (st : σ)
    (ps : List Product) :
    ∀ e ∈ (removeBackendLoop env b st ps).trace, ∃ p uerr, e = Event.updateProduct p uerr := by
  induction ps generalizing st with
  | nil => simp [removeBackendLoop]
  | cons p rest ih =>
    unfold removeBackendLoop
    dsimp only
    cases h : (env.updateProduct st (detachBackend p b)).1 with
    | some err =>
      intro e he
      exact ⟨_, _, List.mem_singleton.1 he⟩
    | none =>
      intro e he
      rcases List.mem_cons.1 he with h1 | h1
      · exact ⟨_, _, h1⟩
      · exact ih _ e h1

theorem removeBackendLoop_ok {σ : Type} (env : Env σ) (b : Backend) (st : σ)
    (ps : List Product) (hok : (removeBackendLoop env b st ps).result = none) :
    (removeBackendLoop env b st ps).trace
      = ps.map (fun p => Event.updateProduct (detachBackend p b) none) := by
  induction ps generalizing st with
  | nil => simp [removeBackendLoop]
  | cons p rest ih =>
    unfold removeBackendLoop at hok ⊢
    cases h : (env.updateProduct st (detachBackend p b)).1 with
    | some err => simp [h] at hok
    | none =>
      simp only [h] at hok ⊢
      simp [ih _ hok]

theorem removeBackendLoop_failed {σ : Type} (env : Env σ) (b : Backend) (st : σ)
    (ps : List Product) (q : Product) (err : Err)
    (hmem : Event.updateProduct q (some err) ∈ (removeBackendLoop env b st ps).trace) :
    (removeBackendLoop env b st ps).result = some err := by
  induction ps generalizing st with
  | nil => simp [removeBackendLoop] at hmem
  | cons p rest ih =>
    unfold removeBackendLoop at hmem ⊢
    cases h : (env.updateProduct st (detachBackend p b)).1 with
    | some err1 =>
      simp only [h, List.mem_singleton, Event.updateProduct.injEq, Option.some.injEq] at hmem ⊢
      rw [hmem.2]
    | none =>
      simp only [h, List.mem_cons, Event.updateProduct.injEq] at hmem ⊢
      rcases hmem with h1 | h1
      · exact absurd h1.2 (by simp)
      · exact ih _ h1

theorem append_delete_split (X pre post : List Event) (d d1 : Event)
    (hX : ∀ e ∈ X, e.isDeleteBackendApi = false) (hd : d.isDeleteBackendApi = true)
    (h : pre ++ d :: post = X ++ [d1]) : pre = X ∧ post = [] := by
  induction X generalizing pre with
  | nil =>
    cases pre with
    | nil => simp at h; simp [h]
    | cons y ys =>
      simp only [List.cons_append, List.nil_append, List.cons.injEq] at h
      have := h.2
      simp at this
  | cons x xs ih =>
    cases pre with
    | nil =>
      simp only [List.nil_append, List.cons_append, List.cons.injEq] at h
      have hx := hX x (List.mem_cons_self _ _)
      rw [← h.1, hd] at hx
      exact absurd hx (by simp)
    | cons y ys =>
      simp only [List.cons_append, List.cons.injEq] at h
      obtain ⟨h1, h2⟩ := ih ys (fun e he => hX e (List.mem_cons_of_mem _ he)) h.2
      exact ⟨by rw [h.1, h1], h2⟩

/-- C2: in `removeBackend` the remote `DeleteBackendApi` call is the last call
made; when it is made, the store `Update`s before it are those of all the
dependents returned by `fetchTenantProductCRs`, each with the backend's
reference removed, and all of them succeeded; a failing dependent `Update`
makes `removeBackend` return that error without any remote delete call. -/
theorem removeBackend_detaches_before_delete {σ : Type} (env : Env σ) (st : σ) (b : Backend) :
    (∀ pre post id derr,
      (removeBackend env st b).trace = pre ++ Event.deleteBackendApi id derr :: post →
        post = [] ∧
        (∀ p uerr, Event.updateProduct p uerr ∈ pre → uerr = none) ∧
        ∃ items, env.list st b.Namespace = .ok items ∧
          pre.filter Event.isUpdateProduct
            = (fetchTenantProductCRs env st items b).result.1.map
                (fun p => Event.updateProduct (detachBackend p b) none)) ∧
    (∀ p err, Event.updateProduct p (some err) ∈ (removeBackend env st b).trace →
      (removeBackend env st b).result = .returned (some err) ∧
      ∀ e ∈ (removeBackend env st b).trace, e.isDeleteBackendApi = false) := by
  unfold removeBackend
  cases hl : env.lookupProviderAccount st b.Namespace b.Spec.ProviderAccountRef with
  | error e1 =>
    refine ⟨?_, ?_⟩
    · intro pre post id derr h
      have hm : Event.deleteBackendApi id derr ∈
          [Event.lookupProviderAccount b.Namespace b.Spec.ProviderAccountRef (some e1)] := by
        simp only at h
        rw [h]; simp
      simp at hm
    · intro p err h
      simp at h
  | ok pa =>
    dsimp only
    cases hp : env.portaClient pa with
    | error e2 =>
      refine ⟨?_, ?_⟩
      · intro pre post id derr h
        have hm : Event.deleteBackendApi id derr ∈
            [Event.lookupProviderAccount b.Namespace b.Spec.ProviderAccountRef none] ++
              [Event.portaClient (some e2)] := by
          simp only at h
          rw [h]; simp
        simp at hm
      · intro p err h
        simp at h
    | ok c =>
      dsimp only
      cases hli : env.list st b.Namespace with
      | error e3 =>
        refine ⟨?_, ?_⟩
        · intro pre post id derr h
          have hm : Event.deleteBackendApi id derr ∈
              [Event.lookupProviderAccount b.Namespace b.Spec.ProviderAccountRef none] ++
                [Event.portaClient none] ++ [Event.list b.Namespace (some e3)] := by
            simp only at h
            rw [h]; simp
          simp at hm
        · intro p err h
          simp at h
      | ok items =>
        dsimp only
        have hf := fetchTenantProductCRs_trace env st items b
        have hu := removeBackendLoop_trace env b (fetchTenantProductCRs env st items b).st
          (fetchTenantProductCRs env st items b).result.1
        have hfail := removeBackendLoop_failed env b (fetchTenantProductCRs env st items b).st
          (fetchTenantProductCRs env st items b).result.1
        have hok := removeBackendLoop_ok env b (fetchTenantProductCRs env st items b).st
          (fetchTenantProductCRs env st items b).result.1
        generalize (fetchTenantProductCRs env st items b).trace = ft at hf
        generalize removeBackendLoop env b (fetchTenantProductCRs env st items b).st
          (fetchTenantProductCRs env st items b).result.1 = u at hu hfail hok
        have hnodel : ∀ e ∈ [Event.lookupProviderAccount b.Namespace b.Spec.ProviderAccountRef none]
            ++ [Event.portaClient none] ++ [Event.list b.Namespace none] ++ ft ++ u.trace,
            e.isDeleteBackendApi = false := by
          intro e he
          simp only [List.mem_append, List.mem_singleton] at he
          rcases he with (((h | h) | h) | h) | h
          · rw [h]; rfl
          · rw [h]; rfl
          · rw [h]; rfl
          · obtain ⟨ns, ref, err, h1⟩ := hf e h
            rw [h1]; rfl
          · obtain ⟨q, uerr, h1⟩ := hu e h
            rw [h1]; rfl
        have hupd : ∀ p err, Event.updateProduct p (some err) ∈
            [Event.lookupProviderAccount b.Namespace b.Spec.ProviderAccountRef none]
            ++ [Event.portaClient none] ++ [Event.list b.Namespace none] ++ ft ++ u.trace →
            u.result = some err := by
          intro p err he
          simp only [List.mem_append, List.mem_singleton] at he
          rcases he with (((h | h) | h) | h) | h
          · simp at h
          · simp at h
          · simp at h
          · obtain ⟨ns, ref, err1, h1⟩ := hf _ h
            simp at h1
          · exact hfail p err h
        have hfilter : ([Event.lookupProviderAccount b.Namespace b.Spec.ProviderAccountRef none]
            ++ [Event.portaClient none] ++ [Event.list b.Namespace none] ++ ft
            ++ u.trace).filter Event.isUpdateProduct = u.trace := by
          have h1 : ft.filter Event.isUpdateProduct = [] := by
            rw [List.filter_eq_nil_iff]
            intro e he
            obtain ⟨ns, ref, err, h1⟩ := hf e he
            rw [h1]; simp [Event.isUpdateProduct]
          have h2 : u.trace.filter Event.isUpdateProduct = u.trace := by
            rw [List.filter_eq_self]
            intro e he
            obtain ⟨q, uerr, h1⟩ := hu e he
            rw [h1]; rfl
          simp [List.filter_append, h1, h2, Event.isUpdateProduct]
        cases hur : u.result with
        | some e4 =>
          dsimp only
          refine ⟨?_, ?_⟩
          · intro pre post id derr h
            have hm := hnodel (Event.deleteBackendApi id derr) (by rw [h]; simp)
            simp [Event.isDeleteBackendApi] at hm
          · intro p err h
            have := hupd p err h
            rw [hur] at this
            simp only [Option.some.injEq] at this
            exact ⟨by rw [this], hnodel⟩
        | none =>
          dsimp only
          cases hid : b.Status.ID with
          | none =>
            dsimp only
            refine ⟨?_, ?_⟩
            · intro pre post id derr h
              have hm := hnodel (Event.deleteBackendApi id derr) (by rw [h]; simp)
              simp [Event.isDeleteBackendApi] at hm
            · intro p err h
              have := hupd p err h
              rw [hur] at this
              simp at this
          | some id0 =>
            dsimp only
            refine ⟨?_, ?_⟩
            · intro pre post id derr h
              obtain ⟨h1, h2⟩ := append_delete_split _ pre post (Event.deleteBackendApi id derr) _ hnodel rfl h.symm
              refine ⟨h2, ?_, items, rfl, ?_⟩
              · intro p uerr hmem
                cases uerr with
                | none => rfl
                | some err =>
                  rw [h1] at hmem
                  have := hupd p err hmem
                  rw [hur] at this
                  simp at this
              · rw [h1, hfilter, hok hur]
            · intro p err h
              rcases List.mem_append.1 h with h1 | h1
              · have := hupd p err h1
                rw [hur] at this
                simp at this
              · simp at h1

theorem removeBackend_detaches_before_delete_witness :
    (removeBackend rejectedUpdateScenario.env 0 dyingBackend).result
        = .returned (some (Err.other "conflict")) ∧
      ∀ e ∈ (removeBackend rejectedUpdateScenario.env 0 dyingBackend).trace,
        e.isDeleteBackendApi = false :=
  (removeBackend_detaches_before_delete rejectedUpdateScenario.env 0 dyingBackend).2
    (detachBackend productE dyingBackend) (Err.other "conflict") (by decide)

theorem removeBackend_shape {σ : Type} (env : Env σ) (st : σ) (b : Backend) :
    (∃ err, env.lookupProviderAccount st b.Namespace b.Spec.ProviderAccountRef = .error err ∧
      (removeBackend env st b).result = .returned (some err) ∧
      (removeBackend env st b).trace
        = [Event.lookupProviderAccount b.Namespace b.Spec.ProviderAccountRef (some err)]) ∨
    (∃ pa err, env.lookupProviderAccount st b.Namespace b.Spec.ProviderAccountRef = .ok pa ∧
      env.portaClient pa = .error err ∧
      (removeBackend env st b).result = .returned (some err) ∧
      (removeBackend env st b).trace
        = [Event.lookupProviderAccount b.Namespace b.Spec.ProviderAccountRef none,
            Event.portaClient (some err)]) ∨
    (∃ pa c err, env.lookupProviderAccount st b.Namespace b.Spec.ProviderAccountRef = .ok pa ∧
      env.portaClient pa = .ok c ∧ env.list st b.Namespace = .error err ∧
      (removeBackend env st b).result = .returned (some err) ∧
      (removeBackend env st b).trace
        = [Event.lookupProviderAccount b.Namespace b.Spec.ProviderAccountRef none,
            Event.portaClient none, Event.list b.Namespace (some err)]) ∨
    (∃ pa c items, env.lookupProviderAccount st b.Namespace b.Spec.ProviderAccountRef = .ok pa ∧
      env.portaClient pa = .ok c ∧ env.list st b.Namespace = .ok items ∧
      (removeBackend env st b).result
        = (match (detachDependents env st items b).result with
          | some err => .returned (some err)
          | none =>
            match b.Status.ID with
            | none => .panicked "invalid memory address or nil pointer dereference"
            | some id =>
              .returned (env.deleteBackendApi (detachDependents env st items b).st c id).1) ∧
      (removeBackend env st b).trace
        = [Event.lookupProviderAccount b.Namespace b.Spec.ProviderAccountRef none,
            Event.portaClient none, Event.list b.Namespace none]
          ++ (fetchTenantProductCRs env st items b).trace
          ++ (detachDependents env st items b).trace
          ++ (match (detachDependents env st items b).result, b.Status.ID with
            | none, some id =>
              [Event.deleteBackendApi id
                (env.deleteBackendApi (detachDependents env st items b).st c id).1]
            | _, _ => [])) := by
  unfold removeBackend detachDependents
  cases hl : env.lookupProviderAccount st b.Namespace b.Spec.ProviderAccountRef with
  | error e1 => exact Or.inl ⟨e1, rfl, rfl, rfl⟩
  | ok pa =>
    dsimp only
    cases hp : env.portaClient pa with
    | error e2 => exact Or.inr (Or.inl ⟨pa, e2, rfl, hp, rfl, rfl⟩)
    | ok c =>
      dsimp only
      cases hli : env.list st b.Namespace with
      | error e3 => exact Or.inr (Or.inr (Or.inl ⟨pa, c, e3, rfl, hp, rfl, rfl, rfl⟩))
      | ok items =>
        refine Or.inr (Or.inr (Or.inr ⟨pa, c, items, rfl, hp, rfl, ?_, ?_⟩))
        · dsimp only
          cases removeBackendLoop env b (fetchTenantProductCRs env st items b).st
            (fetchTenantProductCRs env st items b).result.1 |>.result with
          | some e4 => rfl
          | none =>
            dsimp only
            cases b.Status.ID <;> rfl
        · dsimp only
          cases removeBackendLoop env b (fetchTenantProductCRs env st items b).st
            (fetchTenantProductCRs env st items b).result.1 |>.result with
          | some e4 => simp
          | none =>
            dsimp only
            cases b.Status.ID <;> simp

theorem removeBackend_no_backend_update {σ : Type} (env : Env σ) (st : σ) (b : Backend) :
    ∀ e ∈ (removeBackend env st b).trace, e.isUpdateBackend = false := by
  intro e he
  rcases removeBackend_shape env st b with ⟨err, _, _, ht⟩ | ⟨pa, err, _, _, _, ht⟩ |
    ⟨pa, c, err, _, _, _, _, ht⟩ | ⟨pa, c, items, _, _, _, _, ht⟩
  · rw [ht] at he; simp at he; rw [he]; rfl
  · rw [ht] at he; simp at he; rcases he with h | h <;> (rw [h]; rfl)
  · rw [ht] at he; simp at he; rcases he with h | h | h <;> (rw [h]; rfl)
  · rw [ht] at he
    simp only [List.mem_append, List.mem_cons, List.mem_singleton, List.not_mem_nil,
      or_false] at he
    rcases he with (((h | h | h) | h) | h) | h
    · rw [h]; rfl
    · rw [h]; rfl
    · rw [h]; rfl
    · obtain ⟨ns, ref, err, h1⟩ := fetchTenantProductCRs_trace env st items b e h
      rw [h1]; rfl
    · obtain ⟨q, uerr, h1⟩ := removeBackendLoop_trace env b _ _ e h
      rw [h1]; rfl
    · revert h
      cases (detachDependents env st items b).result with
      | some e4 => simp
      | none =>
        cases b.Status.ID with
        | none => simp
        | some id => simp; intro h; rw [h]; rfl

theorem removeBackend_step_failure {σ : Type} (env : Env σ) (st : σ) (b : Backend) (err : Err)
    (hfail : cleanupStepFails env st b err) :
    (removeBackend env st b).result = .returned (some err) := by
  rcases removeBackend_shape env st b with ⟨e1, hl, hr, ht⟩ | ⟨pa, e2, hl, hp, hr, ht⟩ |
    ⟨pa, c, e3, hl, hp, hli, hr, ht⟩ | ⟨pa, c, items, hl, hp, hli, hr, ht⟩
  · rcases hfail with h | ⟨pa1, h, _⟩ | ⟨pa1, c1, h, _⟩ | ⟨p, h⟩ | ⟨id, h⟩
    · rw [hl] at h; cases h; exact hr
    · rw [hl] at h; cases h
    · rw [hl] at h; cases h
    · rw [ht] at h; simp at h
    · rw [ht] at h; simp at h
  · rcases hfail with h | ⟨pa1, h, h2⟩ | ⟨pa1, c1, h, h2, _⟩ | ⟨p, h⟩ | ⟨id, h⟩
    · rw [hl] at h; cases h
    · rw [hl] at h; cases h; rw [hp] at h2; cases h2; exact hr
    · rw [hl] at h; cases h; rw [hp] at h2; cases h2
    · rw [ht] at h; simp at h
    · rw [ht] at h; simp at h
  · rcases hfail with h | ⟨pa1, h, h2⟩ | ⟨pa1, c1, h, h2, h3⟩ | ⟨p, h⟩ | ⟨id, h⟩
    · rw [hl] at h; cases h
    · rw [hl] at h; cases h; rw [hp] at h2; cases h2
    · rw [hli] at h3; cases h3; exact hr
    · rw [ht] at h; simp at h
    · rw [ht] at h; simp at h
  · rcases hfail with h | ⟨pa1, h, h2⟩ | ⟨pa1, c1, h, h2, h3⟩ | ⟨p, h⟩ | ⟨id, h⟩
    · rw [hl] at h; cases h
    · rw [hl] at h; cases h; rw [hp] at h2; cases h2
    · rw [hli] at h3; cases h3
    · rw [ht] at h
      rw [hr]
      have hfl := removeBackendLoop_failed env b (fetchTenantProductCRs env st items b).st
        (fetchTenantProductCRs env st items b).result.1 p err
      have hft := fetchTenantProductCRs_trace env st items b
      simp only [List.mem_append, List.mem_cons, List.mem_singleton, List.not_mem_nil,
        or_false] at h
      rcases h with (((h | h | h) | h) | h) | h
      · cases h
      · cases h
      · cases h
      · obtain ⟨ns, ref, err1, h1⟩ := hft _ h
        cases h1
      · have := hfl h
        unfold detachDependents
        rw [this]
      · revert h
        cases (detachDependents env st items b).result with
        | some e4 => simp
        | none =>
          cases b.Status.ID with
          | none => simp
          | some id => simp
    · rw [ht] at h
      rw [hr]
      have hlt := removeBackendLoop_trace env b (fetchTenantProductCRs env st items b).st
        (fetchTenantProductCRs env st items b).result.1
      have hft := fetchTenantProductCRs_trace env st items b
      simp only [List.mem_append, List.mem_cons, List.mem_singleton, List.not_mem_nil,
        or_false] at h
      rcases h with (((h | h | h) | h) | h) | h
      · cases h
      · cases h
      · cases h
      · obtain ⟨ns, ref, err1, h1⟩ := hft _ h
        cases h1
      · obtain ⟨q, uerr, h1⟩ := hlt _ h
        cases h1
      · revert h
        cases (detachDependents env st items b).result with
        | some e4 => simp
        | none =>
          cases b.Status.ID with
          | none => simp
          | some id0 =>
            simp only [List.mem_singleton, Event.deleteBackendApi.injEq, and_imp]
            intro _ h2
            rw [← h2]

theorem removeBackend_ok_deleted {σ : Type} (env : Env σ) (st : σ) (b : Backend)
    (hok : (removeBackend env st b).result = .returned none) :
    ∃ id, Event.deleteBackendApi id none ∈ (removeBackend env st b).trace := by
  rcases removeBackend_shape env st b with ⟨e1, hl, hr, ht⟩ | ⟨pa, e2, hl, hp, hr, ht⟩ |
    ⟨pa, c, e3, hl, hp, hli, hr, ht⟩ | ⟨pa, c, items, hl, hp, hli, hr, ht⟩
  · rw [hr] at hok; cases hok
  · rw [hr] at hok; cases hok
  · rw [hr] at hok; cases hok
  · rw [hr] at hok
    rw [ht]
    revert hok
    cases (detachDependents env st items b).result with
    | some e4 => intro hok; cases hok
    | none =>
      cases b.Status.ID with
      | none => intro hok; cases hok
      | some id =>
        intro hok
        simp only [Outcome.returned.injEq] at hok
        refine ⟨id, ?_⟩
        simp [hok]

theorem debugDump_trace {σ : Type} (env : Env σ) (b : Backend) :
    ∀ e ∈ (debugDump env b).2, ∃ err, e = Event.marshalIndent err := by
  unfold debugDump
  split
  · split <;> simp
  · simp

theorem Reconcile_on_delete_path {σ : Type} (env : Env σ) (st : σ) (req : Request) (b : Backend)
    (hget : env.get st req = .ok b) (hdump : (debugDump env b).1 = none)
    (hdel : b.DeletionTimestamp.isSome = true)
    (hfin : ContainsFinalizer b backendFinalizer = true) :
    (Reconcile env st req).result = (deletePath env st b).result ∧
    (Reconcile env st req).trace
      = Event.get req none :: (debugDump env b).2 ++ (deletePath env st b).trace := by
  unfold Reconcile
  simp [hget, hdump, hdel, hfin]

theorem deletePath_failure {σ : Type} (env : Env σ) (st : σ) (b : Backend) (err : Err)
    (hrb : (removeBackend env st b).result = .returned (some err)) :
    (deletePath env st b).result = .returned ({}, some err) ∧
    (deletePath env st b).trace = (removeBackend env st b).trace := by
  unfold deletePath
  simp [hrb]

theorem deletePath_panic {σ : Type} (env : Env σ) (st : σ) (b : Backend) (msg : String)
    (hrb : (removeBackend env st b).result = .panicked msg) :
    (deletePath env st b).result = .panicked msg ∧
    (deletePath env st b).trace = (removeBackend env st b).trace := by
  unfold deletePath
  simp [hrb]

theorem deletePath_trace_extends {σ : Type} (env : Env σ) (st : σ) (b : Backend) :
    ∃ rest, (deletePath env st b).trace = (removeBackend env st b).trace ++ rest := by
  unfold deletePath
  dsimp only
  split
  · exact ⟨[], by simp⟩
  · exact ⟨[], by simp⟩
  · split
    · exact ⟨_, rfl⟩
    · exact ⟨_, rfl⟩

/-- C3: on the delete path (record fetched and dumped without failure,
deletion-timestamp set, finalizer present) a
finalizer update is made only if `removeBackend` returned no error, that is no
step of it failed and the remote `DeleteBackendApi` was called and succeeded;
if the provider lookup, the client construction, the product listing, a
dependent update or the remote delete fails with an error, `Reconcile` returns
that error with a zero `Result` and makes no finalizer update. -/
theorem Reconcile_finalizer_after_cleanup {σ : Type} (env : Env σ) (st : σ) (req : Request)
    (b : Backend) (hget : env.get st req = .ok b) (hdump : (debugDump env b).1 = none)
    (hdel : b.DeletionTimestamp.isSome = true)
    (hfin : ContainsFinalizer b backendFinalizer = true) :
    ((∃ e ∈ (Reconcile env st req).trace, e.isUpdateBackend = true) →
      (removeBackend env st b).result = .returned none ∧
      (∀ err, ¬ cleanupStepFails env st b err) ∧
      ∃ id, Event.deleteBackendApi id none ∈ (Reconcile env st req).trace) ∧
    (∀ err, cleanupStepFails env st b err →
      (Reconcile env st req).result = .returned ({}, some err) ∧
      ∀ e ∈ (Reconcile env st req).trace, e.isUpdateBackend = false) := by
  obtain ⟨hres, htr⟩ := Reconcile_on_delete_path env st req b hget hdump hdel hfin
  have hpre : ∀ e ∈ Event.get req none :: (debugDump env b).2, e.isUpdateBackend = false := by
    intro e he
    rcases List.mem_cons.1 he with h | h
    · rw [h]; rfl
    · obtain ⟨err, h1⟩ := debugDump_trace env b e h
      rw [h1]; rfl
  have hnone : ∀ t, (deletePath env st b).trace = (removeBackend env st b).trace →
      t = (Reconcile env st req).trace → ∀ e ∈ t, e.isUpdateBackend = false := by
    intro t hdp ht e he
    rw [ht, htr, hdp] at he
    rcases List.mem_append.1 he with h | h
    · exact hpre e h
    · exact removeBackend_no_backend_update env st b e h
  refine ⟨?_, ?_⟩
  · rintro ⟨e, he, hupd⟩
    cases hrb : (removeBackend env st b).result with
    | panicked msg =>
      have := hnone _ (deletePath_panic env st b msg hrb).2 rfl e he
      rw [this] at hupd; cases hupd
    | returned oerr =>
      cases oerr with
      | some err =>
        have := hnone _ (deletePath_failure env st b err hrb).2 rfl e he
        rw [this] at hupd; cases hupd
      | none =>
        refine ⟨rfl, ?_, ?_⟩
        · intro err hfail
          have := removeBackend_step_failure env st b err hfail
          rw [hrb] at this; cases this
        · obtain ⟨id, hid⟩ := removeBackend_ok_deleted env st b hrb
          obtain ⟨rest, hrest⟩ := deletePath_trace_extends env st b
          refine ⟨id, ?_⟩
          rw [htr, hrest]
          simp [hid]
  · intro err hfail
    have hrb := removeBackend_step_failure env st b err hfail
    obtain ⟨h1, h2⟩ := deletePath_failure env st b err hrb
    exact ⟨by rw [hres, h1], hnone _ h2 rfl⟩

theorem Reconcile_finalizer_after_cleanup_witness :
    (Reconcile rejectedDeleteScenario.env 0 demoRequest).result
        = .returned ({}, some (Err.other "still referenced")) ∧
      ∀ e ∈ (Reconcile rejectedDeleteScenario.env 0 demoRequest).trace,
        e.isUpdateBackend = false :=
  (Reconcile_finalizer_after_cleanup rejectedDeleteScenario.env 0 demoRequest dyingBackend
    rfl (by decide) (by decide) (by decide)).2 (Err.other "still referenced")
    (Or.inr (Or.inr (Or.inr (Or.inr ⟨42, by decide⟩))))

theorem ReconcileFinalizers_trace {σ : Type} (env : Env σ) (st : σ) (b : Backend)
    (finalizer : String) :
    ∀ e ∈ (ReconcileFinalizers env st b finalizer).trace, ∃ b1 err, e = Event.updateBackend b1 err := by
  unfold ReconcileFinalizers
  split
  · split
    · simp
    · simp
  · split
    · simp
    · simp

theorem decideRequeue_trace (reconcileErr : Option Err) (statusResult : Result)
    (statusUpdateErr : Option Err) :
    ∀ e ∈ (decideRequeue reconcileErr statusResult statusUpdateErr).2,
      ∃ reason arg, e = Event.eventf "Warning" reason arg := by
  unfold decideRequeue
  cases statusUpdateErr with
  | some sErr => cases reconcileErr <;> simp
  | none =>
    dsimp only
    split
    · simp
    · cases reconcileErr with
      | none => simp
      | some rErr =>
        dsimp only
        split <;> simp

theorem validateSpec_of_invalid {σ : Type} (env : Env σ) (b : Backend)
    (hval : env.validate b ≠ []) :
    validateSpec env b = some (Err.specField SpecFieldErrorType.InvalidError (env.validate b)) := by
  unfold validateSpec
  cases h : env.validate b with
  | nil => exact absurd h hval
  | cons e es => simp

theorem validateSpec_of_valid {σ : Type} (env : Env σ) (b : Backend)
    (hval : env.validate b = []) : validateSpec env b = none := by
  unfold validateSpec
  simp [hval]

theorem reconcile_invalid {σ : Type} (env : Env σ) (st : σ) (b : Backend)
    (hval : env.validate b ≠ []) :
    (reconcile env st b).trace = [Event.validate (env.validate b)] ∧
    (reconcile env st b).st = st ∧
    (reconcile env st b).result.2
      = some (Err.specField SpecFieldErrorType.InvalidError (env.validate b)) := by
  have h := validateSpec_of_invalid env b hval
  unfold reconcile
  simp [h]

theorem Reconcile_dump_failure {σ : Type} (env : Env σ) (st : σ) (req : Request) (b : Backend)
    (err : Err) (hget : env.get st req = .ok b) (hdump : (debugDump env b).1 = some err) :
    (Reconcile env st req).result = .returned ({}, some err) ∧
    (Reconcile env st req).trace = Event.get req none :: (debugDump env b).2 := by
  unfold Reconcile
  simp [hget, hdump]

theorem Reconcile_on_deleted {σ : Type} (env : Env σ) (st : σ) (req : Request) (b : Backend)
    (hget : env.get st req = .ok b) (hdump : (debugDump env b).1 = none)
    (hdel : b.DeletionTimestamp.isSome = true)
    (hfin : ContainsFinalizer b backendFinalizer = false) :
    (Reconcile env st req).result = .returned ({}, none) ∧
    (Reconcile env st req).trace = Event.get req none :: (debugDump env b).2 := by
  unfold Reconcile
  simp [hget, hdump, hdel, hfin]

theorem Reconcile_on_missing_finalizer {σ : Type} (env : Env σ) (st : σ) (req : Request)
    (b : Backend) (hget : env.get st req = .ok b) (hdump : (debugDump env b).1 = none)
    (hdel : b.DeletionTimestamp = none)
    (hfin : ContainsFinalizer b backendFinalizer = false) :
    (Reconcile env st req).result
        = .returned ({}, (env.updateBackend st (AddFinalizer b backendFinalizer)).1) ∧
    (Reconcile env st req).trace
      = Event.get req none :: (debugDump env b).2 ++
          [Event.updateBackend (AddFinalizer b backendFinalizer)
            (env.updateBackend st (AddFinalizer b backendFinalizer)).1] := by
  unfold Reconcile ReconcileFinalizers
  simp only [hget, hdump, hdel, hfin]
  cases h : (env.updateBackend st (AddFinalizer b backendFinalizer)).1 <;> simp [h]

theorem Reconcile_on_defaults {σ : Type} (env : Env σ) (st : σ) (req : Request)
    (b : Backend) (hget : env.get st req = .ok b) (hdump : (debugDump env b).1 = none)
    (hdel : b.DeletionTimestamp = none)
    (hfin : ContainsFinalizer b backendFinalizer = true)
    (hdef : (env.setDefaults b).2 = true) :
    (Reconcile env st req).result
        = (match (env.updateBackend st (env.setDefaults b).1).1 with
          | some err => .returned ({}, some (Err.errorf1 "Failed setting backend defaults: %w" err))
          | none => .returned ({ Requeue := true }, none)) ∧
    (Reconcile env st req).trace
      = Event.get req none :: (debugDump env b).2 ++
          [Event.setDefaults true,
            Event.updateBackend (env.setDefaults b).1
              (env.updateBackend st (env.setDefaults b).1).1] := by
  unfold Reconcile
  simp only [hget, hdump, hdel, hfin, hdef]
  cases h : (env.updateBackend st (env.setDefaults b).1).1 <;> simp [h]

theorem Reconcile_on_missing_finalizer_st {σ : Type} (env : Env σ) (st : σ) (req : Request)
    (b : Backend) (hget : env.get st req = .ok b) (hdump : (debugDump env b).1 = none)
    (hdel : b.DeletionTimestamp = none)
    (hfin : ContainsFinalizer b backendFinalizer = false) :
    (Reconcile env st req).st = (env.updateBackend st (AddFinalizer b backendFinalizer)).2 := by
  unfold Reconcile ReconcileFinalizers
  simp only [hget, hdump, hdel, hfin]
  cases h : (env.updateBackend st (AddFinalizer b backendFinalizer)).1 <;> simp [h]

theorem Reconcile_on_defaults_st {σ : Type} (env : Env σ) (st : σ) (req : Request)
    (b : Backend) (hget : env.get st req = .ok b) (hdump : (debugDump env b).1 = none)
    (hdel : b.DeletionTimestamp = none)
    (hfin : ContainsFinalizer b backendFinalizer = true)
    (hdef : (env.setDefaults b).2 = true) :
    (Reconcile env st req).st = (env.updateBackend st (env.setDefaults b).1).2 := by
  unfold Reconcile
  simp only [hget, hdump, hdel, hfin, hdef]
  cases h : (env.updateBackend st (env.setDefaults b).1).1 <;> simp [h]

theorem Reconcile_on_sync {σ : Type} (env : Env σ) (st : σ) (req : Request)
    (b : Backend) (hget : env.get st req = .ok b) (hdump : (debugDump env b).1 = none)
    (hdel : b.DeletionTimestamp = none)
    (hfin : ContainsFinalizer b backendFinalizer = true)
    (hdef : (env.setDefaults b).2 = false) :
    (Reconcile env st req).result = (syncStage env st (env.setDefaults b).1).result ∧
    (Reconcile env st req).trace
      = Event.get req none :: (debugDump env b).2 ++ [Event.setDefaults false] ++
          (syncStage env st (env.setDefaults b).1).trace := by
  unfold Reconcile
  simp [hget, hdump, hdel, hfin, hdef]

theorem Reconcile_head_events {σ : Type} (env : Env σ) (req : Request) (b : Backend) :
    ∀ e ∈ Event.get req none :: (debugDump env b).2,
      e = Event.get req none ∨ ∃ err, e = Event.marshalIndent err := by
  intro e he
  rcases List.mem_cons.1 he with h | h
  · exact Or.inl h
  · exact Or.inr (debugDump_trace env b e h)

theorem syncStage_eq {σ : Type} (env : Env σ) (st : σ) (b : Backend) :
    (syncStage env st b).result
        = .returned (decideRequeue (reconcile env st b).result.2
            (env.statusReconcile (reconcile env st b).st (reconcile env st b).result.1).1.1
            (env.statusReconcile (reconcile env st b).st (reconcile env st b).result.1).1.2).1 ∧
    (syncStage env st b).trace
      = (reconcile env st b).trace ++
          [Event.statusReconcile
            (env.statusReconcile (reconcile env st b).st (reconcile env st b).result.1).1.1
            (env.statusReconcile (reconcile env st b).st (reconcile env st b).result.1).1.2] ++
          (decideRequeue (reconcile env st b).result.2
            (env.statusReconcile (reconcile env st b).st (reconcile env st b).result.1).1.1
            (env.statusReconcile (reconcile env st b).st (reconcile env st b).result.1).1.2).2 :=
  ⟨rfl, rfl⟩

/-- C1 (as amended): a record whose `Validate()` list is non-empty triggers no
remote call (no remote client, no remote index, no sync, no `DeleteBackendApi`)
in any pass that is not on the delete path, i.e. unless the record has its
deletion-timestamp set and the finalizer present.  `Validate()` is read on the
record as `SetDefaults` leaves it. -/
theorem Reconcile_invalid_no_remote_call {σ : Type} (env : Env σ) (st : σ) (req : Request)
    (b : Backend) (hget : env.get st req = .ok b)
    (hval : env.validate (env.setDefaults b).1 ≠ [])
    (hpath : ¬ (b.DeletionTimestamp.isSome = true ∧ ContainsFinalizer b backendFinalizer = true)) :
    ∀ e ∈ (Reconcile env st req).trace, e.isRemote = false := by
  have hpre : ∀ e ∈ Event.get req none :: (debugDump env b).2, e.isRemote = false := by
    intro e he
    rcases Reconcile_head_events env req b e he with h | ⟨err, h⟩ <;> (rw [h]; rfl)
  intro e he
  cases hd : (debugDump env b).1 with
  | some err =>
    rw [(Reconcile_dump_failure env st req b err hget hd).2] at he
    exact hpre e he
  | none =>
    cases hfin : ContainsFinalizer b backendFinalizer with
    | false =>
      cases hdel : b.DeletionTimestamp with
      | some t =>
        rw [(Reconcile_on_deleted env st req b hget hd (by simp [hdel]) hfin).2] at he
        exact hpre e he
      | none =>
        rw [(Reconcile_on_missing_finalizer env st req b hget hd hdel hfin).2] at he
        rcases List.mem_append.1 he with h | h
        · exact hpre e h
        · rw [List.mem_singleton.1 h]; rfl
    | true =>
      cases hdel : b.DeletionTimestamp with
      | some t => exact absurd ⟨by simp [hdel], hfin⟩ hpath
      | none =>
        cases hdef : (env.setDefaults b).2 with
        | true =>
          rw [(Reconcile_on_defaults env st req b hget hd hdel hfin hdef).2] at he
          rcases List.mem_append.1 he with h | h
          · exact hpre e h
          · simp only [List.mem_cons, List.mem_singleton, List.not_mem_nil, or_false] at h
            rcases h with h | h <;> (rw [h]; rfl)
        | false =>
          rw [(Reconcile_on_sync env st req b hget hd hdel hfin hdef).2,
            (syncStage_eq env st _).2, (reconcile_invalid env st _ hval).1] at he
          simp only [List.mem_append, List.mem_cons, List.mem_singleton, List.not_mem_nil,
            or_false] at he
          rcases he with ((h | h) | h) | (h | h) | h
          · exact hpre e (List.mem_cons.2 (Or.inl h))
          · exact hpre e (List.mem_cons.2 (Or.inr h))
          · rw [h]; rfl
          · rw [h]; rfl
          · rw [h]; rfl
          · obtain ⟨reason, arg, h1⟩ := decideRequeue_trace _ _ _ e h
            rw [h1]; rfl

theorem Reconcile_invalid_no_remote_call_witness :
    invalidLiveScenario.env.validate (invalidLiveScenario.env.setDefaults liveBackend).1 ≠ [] ∧
      ∀ e ∈ (Reconcile invalidLiveScenario.env 0 demoRequest).trace, e.isRemote = false :=
  ⟨by decide,
    Reconcile_invalid_no_remote_call invalidLiveScenario.env 0 demoRequest liveBackend rfl
      (by decide) (by decide)⟩

/-- C1 (counterexample): a record whose `Validate()` list is non-empty, with
deletion-timestamp set and the finalizer present, makes `Reconcile` build the
remote client and call `DeleteBackendApi`. -/
theorem invalid_record_delete_path_calls_remote :
    invalidDyingScenario.env.get 0 demoRequest = .ok dyingBackend ∧
    invalidDyingScenario.env.validate dyingBackend ≠ [] ∧
    Event.portaClient none ∈ (Reconcile invalidDyingScenario.env 0 demoRequest).trace ∧
    Event.deleteBackendApi 42 none ∈ (Reconcile invalidDyingScenario.env 0 demoRequest).trace ∧
    ¬ ∀ e ∈ (Reconcile invalidDyingScenario.env 0 demoRequest).trace, e.isRemote = false :=
  ⟨rfl, by decide, by decide, by decide, by decide⟩

theorem AddFinalizer_contains (b : Backend) (finalizer : String) :
    ContainsFinalizer (AddFinalizer b finalizer) finalizer = true := by
  unfold ContainsFinalizer AddFinalizer
  split <;> simp_all

/-- C4 (as amended): for a fetched record (the verbose dump of lines 73-79 not
failing) with no deletion-timestamp and without the backend finalizer,
`Reconcile` writes the record with the
finalizer added, leaving the store as that write leaves it, and, when that
write succeeds, ends the pass returning the
zero `Result` (no requeue request) with nil error, without running defaulting,
validation, sync or status reporting. -/
theorem Reconcile_adds_finalizer {σ : Type} (env : Env σ) (st : σ) (req : Request)
    (b : Backend) (hget : env.get st req = .ok b) (hdump : (debugDump env b).1 = none)
    (hdel : b.DeletionTimestamp = none)
    (hfin : ContainsFinalizer b backendFinalizer = false)
    (hwrite : (env.updateBackend st (AddFinalizer b backendFinalizer)).1 = none) :
    (Reconcile env st req).result = .returned ({}, none) ∧
    (Reconcile env st req).trace
      = Event.get req none :: (debugDump env b).2 ++
          [Event.updateBackend (AddFinalizer b backendFinalizer) none] ∧
    ContainsFinalizer (AddFinalizer b backendFinalizer) backendFinalizer = true ∧
    (Reconcile env st req).st = (env.updateBackend st (AddFinalizer b backendFinalizer)).2 ∧
    ∀ e ∈ (Reconcile env st req).trace, e.isLaterStage = false := by
  obtain ⟨hres, htr⟩ := Reconcile_on_missing_finalizer env st req b hget hdump hdel hfin
  rw [hwrite] at hres htr
  refine ⟨hres, htr, AddFinalizer_contains b backendFinalizer,
    Reconcile_on_missing_finalizer_st env st req b hget hdump hdel hfin, ?_⟩
  intro e he
  rw [htr] at he
  rcases List.mem_append.1 he with h | h
  · rcases Reconcile_head_events env req b e h with h1 | ⟨err, h1⟩ <;> (rw [h1]; rfl)
  · rw [List.mem_singleton.1 h]; rfl

theorem Reconcile_adds_finalizer_witness :
    (Reconcile (quietScenario freshBackend).env 0 demoRequest).trace
      = [Event.get demoRequest none,
          Event.updateBackend (AddFinalizer freshBackend backendFinalizer) none] :=
  (Reconcile_adds_finalizer (quietScenario freshBackend).env 0 demoRequest freshBackend rfl
    (by decide) (by decide) (by decide) (by decide)).2.1

/-- C4 (counterexample): a fetched record with no deletion-timestamp and no
finalizer, whose finalizer write succeeds, gets the zero `Result` back:
`Requeue` is false and nothing asks for another pass. -/
theorem fresh_record_not_requeued :
    (quietScenario freshBackend).env.get 0 demoRequest = .ok freshBackend ∧
    freshBackend.DeletionTimestamp = none ∧
    ContainsFinalizer freshBackend backendFinalizer = false ∧
    Event.updateBackend (AddFinalizer freshBackend backendFinalizer) none
      ∈ (Reconcile (quietScenario freshBackend).env 0 demoRequest).trace ∧
    (Reconcile (quietScenario freshBackend).env 0 demoRequest).result
      = .returned ({ Requeue := false, RequeueAfter := 0 }, none) ∧
    (Reconcile (quietScenario freshBackend).env 0 demoRequest).result
      ≠ .returned ({ Requeue := true, RequeueAfter := 0 }, none) :=
  ⟨rfl, by decide, by decide, by decide, by decide, by decide⟩

theorem reconcile_trace_no_warning {σ : Type} (env : Env σ) (st : σ) (b : Backend) :
    ∀ e ∈ (reconcile env st b).trace, e.isWarning = false := by
  unfold reconcile
  dsimp only
  split
  · simp [Event.isWarning]
  · split
    · simp [Event.isWarning]
    · split
      · simp [Event.isWarning]
      · split
        · simp [Event.isWarning]
        · simp [Event.isWarning]

theorem Reconcile_sync_outcome {σ : Type} (env : Env σ) (st : σ) (req : Request) (b : Backend)
    (hreach : reachesSync env st req b) :
    (Reconcile env st req).result
        = .returned (decideRequeue (syncError env st b) (statusOutcome env st b).1
            (statusOutcome env st b).2).1 ∧
    (Reconcile env st req).trace
      = Event.get req none :: (debugDump env b).2 ++ [Event.setDefaults false] ++
          ((reconcile env st (env.setDefaults b).1).trace ++
            [Event.statusReconcile (statusOutcome env st b).1 (statusOutcome env st b).2] ++
            (decideRequeue (syncError env st b) (statusOutcome env st b).1
              (statusOutcome env st b).2).2) := by
  obtain ⟨hget, hdump, hdel, hfin, hdef⟩ := hreach
  obtain ⟨h1, h2⟩ := Reconcile_on_sync env st req b hget hdump hdel hfin hdef
  rw [h1, h2, (syncStage_eq env st _).1, (syncStage_eq env st _).2]
  exact ⟨rfl, rfl⟩

/-- C5: in a pass that reaches the sync stage and whose status write succeeds,
`Reconcile` asks for another pass (`Requeue` set or a non-nil error) exactly
when the status reconciler signalled requeue or the sync error is non-nil and
not an Invalid spec error; an Invalid sync error with no status requeue, and a
successful sync with no status requeue, both return the zero `Result` and nil. -/
theorem Reconcile_requeue_decision {σ : Type} (env : Env σ) (st : σ) (req : Request)
    (b : Backend) (hreach : reachesSync env st req b)
    (hstatus : (statusOutcome env st b).2 = none) :
    (asksAnotherPass (Reconcile env st req).result = true ↔
      ((statusOutcome env st b).1.Requeue = true ∨
        ∃ e, syncError env st b = some e ∧ IsInvalidSpecError e = false)) ∧
    (∀ e, syncError env st b = some e → IsInvalidSpecError e = true →
      (statusOutcome env st b).1.Requeue = false →
      (Reconcile env st req).result = .returned ({}, none)) ∧
    (syncError env st b = none → (statusOutcome env st b).1.Requeue = false →
      (Reconcile env st req).result = .returned ({}, none)) := by
  rw [(Reconcile_sync_outcome env st req b hreach).1, hstatus]
  unfold decideRequeue
  cases hrq : (statusOutcome env st b).1.Requeue with
  | true => simp [asksAnotherPass, hrq]
  | false =>
    cases hse : syncError env st b with
    | none => simp [asksAnotherPass]
    | some e =>
      cases hinv : IsInvalidSpecError e <;> simp [asksAnotherPass, hinv]

theorem Reconcile_requeue_decision_witness :
    (Reconcile invalidLiveScenario.env 0 demoRequest).result = .returned ({}, none) :=
  (Reconcile_requeue_decision invalidLiveScenario.env 0 demoRequest liveBackend
    ⟨rfl, by decide, by decide, by decide, by decide⟩ (by decide)).2.1
    (Err.specField SpecFieldErrorType.InvalidError [demoFieldError]) (by decide) (by decide)
    (by decide)

/-- C6 (as amended): in a pass that reaches the sync stage with a sync error
that is non-nil and not an Invalid spec error, `Reconcile` returns a non-nil
error with the zero `Result` unless the status write succeeded and the status
reconciler signalled requeue; in that case it returns the status reconciler's
`Result` with a nil error. -/
theorem Reconcile_transient_error {σ : Type} (env : Env σ) (st : σ) (req : Request)
    (b : Backend) (e : Err) (hreach : reachesSync env st req b)
    (hsync : syncError env st b = some e) (hinv : IsInvalidSpecError e = false) :
    ((statusOutcome env st b).2 = none → (statusOutcome env st b).1.Requeue = false →
      (Reconcile env st req).result = .returned ({}, some e)) ∧
    (∀ s, (statusOutcome env st b).2 = some s →
      (Reconcile env st req).result = .returned ({}, some (Err.errorf2
        "Failed to sync backend: %v. Failed to update backend status: %w" e s))) ∧
    ((statusOutcome env st b).2 = none → (statusOutcome env st b).1.Requeue = true →
      (Reconcile env st req).result = .returned ((statusOutcome env st b).1, none)) := by
  rw [(Reconcile_sync_outcome env st req b hreach).1, hsync]
  unfold decideRequeue
  refine ⟨?_, ?_, ?_⟩
  · intro h1 h2
    simp [h1, h2, hinv]
  · intro s h1
    simp [h1]
  · intro h1 h2
    simp [h1, h2]

theorem Reconcile_transient_error_witness :
    (Reconcile transientScenario.env 0 demoRequest).result
      = .returned ({}, some (Err.other "connection refused")) :=
  (Reconcile_transient_error transientScenario.env 0 demoRequest liveBackend
    (Err.other "connection refused") ⟨rfl, by decide, by decide, by decide, by decide⟩
    (by decide) (by decide)).1 (by decide) (by decide)

/-- C6 (counterexample): the sync fails with a transport error, the status
write succeeds and signals requeue; `Reconcile` returns a nil error. -/
theorem transient_error_masked_by_status_requeue :
    reachesSync transientRequeueScenario.env 0 demoRequest liveBackend ∧
    syncError transientRequeueScenario.env 0 liveBackend
      = some (Err.other "connection refused") ∧
    IsInvalidSpecError (Err.other "connection refused") = false ∧
    (Reconcile transientRequeueScenario.env 0 demoRequest).result
      = .returned ({ Requeue := true, RequeueAfter := 0 }, none) :=
  ⟨⟨rfl, by decide, by decide, by decide, by decide⟩, by decide, by decide, by decide⟩

/-- C7 (as amended): in a pass in which the sync fails with a non-Invalid
error, `Reconcile` records exactly one warning event when the status write
succeeds and the status reconciler does not signal requeue, and none when the
status reconciler signals requeue or the status write fails. -/
theorem Reconcile_transient_warning_count {σ : Type} (env : Env σ) (st : σ) (req : Request)
    (b : Backend) (e : Err) (hreach : reachesSync env st req b)
    (hsync : syncError env st b = some e) (hinv : IsInvalidSpecError e = false) :
    ((statusOutcome env st b).2 = none → (statusOutcome env st b).1.Requeue = false →
      (Reconcile env st req).trace.countP Event.isWarning = 1 ∧
      Event.eventf "Warning" "ReconcileError" e ∈ (Reconcile env st req).trace) ∧
    (((statusOutcome env st b).2 ≠ none ∨ (statusOutcome env st b).1.Requeue = true) →
      (Reconcile env st req).trace.countP Event.isWarning = 0) := by
  have hpre : (Event.get req none :: (debugDump env b).2 ++ [Event.setDefaults false] ++
      (reconcile env st (env.setDefaults b).1).trace ++
        [Event.statusReconcile (statusOutcome env st b).1 (statusOutcome env st b).2]).countP
      Event.isWarning = 0 := by
    rw [List.countP_eq_zero]
    intro x hx
    simp only [List.mem_append, List.mem_cons, List.mem_singleton, List.not_mem_nil,
      or_false] at hx
    rcases hx with (((h | h) | h) | h) | h
    · rw [h]; simp [Event.isWarning]
    · obtain ⟨err, h1⟩ := debugDump_trace env b x h
      rw [h1]; simp [Event.isWarning]
    · rw [h]; simp [Event.isWarning]
    · rw [reconcile_trace_no_warning env st _ x h]; simp
    · rw [h]; simp [Event.isWarning]
  have htr : (Reconcile env st req).trace.countP Event.isWarning
      = (decideRequeue (syncError env st b) (statusOutcome env st b).1
          (statusOutcome env st b).2).2.countP Event.isWarning := by
    rw [(Reconcile_sync_outcome env st req b hreach).2, ← List.append_assoc,
      ← List.append_assoc, List.countP_append, hpre, Nat.zero_add]
  refine ⟨?_, ?_⟩
  · intro h1 h2
    refine ⟨?_, ?_⟩
    · rw [htr, hsync, h1]
      unfold decideRequeue
      simp [h2, hinv, Event.isWarning]
    · rw [(Reconcile_sync_outcome env st req b hreach).2, hsync, h1]
      unfold decideRequeue
      simp [h2, hinv]
  · intro h
    rw [htr, hsync]
    unfold decideRequeue
    rcases h with h | h
    · cases hs : (statusOutcome env st b).2 with
      | none => exact absurd hs h
      | some s => simp
    · cases hs : (statusOutcome env st b).2 with
      | none => simp [h]
      | some s => simp

theorem Reconcile_transient_warning_count_witness :
    (Reconcile transientScenario.env 0 demoRequest).trace.countP Event.isWarning = 1 ∧
      Event.eventf "Warning" "ReconcileError" (Err.other "connection refused")
        ∈ (Reconcile transientScenario.env 0 demoRequest).trace :=
  (Reconcile_transient_warning_count transientScenario.env 0 demoRequest liveBackend
    (Err.other "connection refused") ⟨rfl, by decide, by decide, by decide, by decide⟩
    (by decide) (by decide)).1 (by decide) (by decide)

/-- C7 (counterexample): the sync fails with a transport error; when the
status write fails, and when the status reconciler signals requeue, the pass
records no warning event. -/
theorem transient_failure_without_warning :
    reachesSync transientStatusFailureScenario.env 0 demoRequest liveBackend ∧
    syncError transientStatusFailureScenario.env 0 liveBackend
      = some (Err.other "connection refused") ∧
    IsInvalidSpecError (Err.other "connection refused") = false ∧
    (Reconcile transientStatusFailureScenario.env 0 demoRequest).trace.countP
      Event.isWarning = 0 ∧
    (Reconcile transientRequeueScenario.env 0 demoRequest).trace.countP Event.isWarning = 0 :=
  ⟨⟨rfl, by decide, by decide, by decide, by decide⟩, by decide, by decide, by decide,
    by decide⟩

/-- C8: for a fetched record (the verbose dump of lines 73-79 not failing)
with no deletion-timestamp and the finalizer present, when `SetDefaults`
reports a change `Reconcile` persists the defaulted record with one store
`Update`, leaving the store as that `Update` leaves it, and returns
`Requeue = true` with nil error, without running validation, sync or status
reporting; if that `Update` fails it returns a non-nil error with the zero
`Result`. -/
theorem Reconcile_persists_defaults {σ : Type} (env : Env σ) (st : σ) (req : Request)
    (b : Backend) (hget : env.get st req = .ok b) (hdump : (debugDump env b).1 = none)
    (hdel : b.DeletionTimestamp = none)
    (hfin : ContainsFinalizer b backendFinalizer = true)
    (hdef : (env.setDefaults b).2 = true) :
    (Reconcile env st req).trace.countP Event.isStoreUpdate = 1 ∧
    Event.updateBackend (env.setDefaults b).1 (env.updateBackend st (env.setDefaults b).1).1
      ∈ (Reconcile env st req).trace ∧
    (∀ e ∈ (Reconcile env st req).trace, e.isValidateSyncOrStatus = false) ∧
    ((env.updateBackend st (env.setDefaults b).1).1 = none →
      (Reconcile env st req).result = .returned ({ Requeue := true }, none)) ∧
    (∀ err, (env.updateBackend st (env.setDefaults b).1).1 = some err →
      (Reconcile env st req).result
        = .returned ({}, some (Err.errorf1 "Failed setting backend defaults: %w" err))) ∧
    (Reconcile env st req).st = (env.updateBackend st (env.setDefaults b).1).2 := by
  obtain ⟨hres, htr⟩ := Reconcile_on_defaults env st req b hget hdump hdel hfin hdef
  have hpre : (Event.get req none :: (debugDump env b).2).countP Event.isStoreUpdate = 0 := by
    rw [List.countP_eq_zero]
    intro x hx
    rcases Reconcile_head_events env req b x hx with h | ⟨err, h⟩ <;>
      (rw [h]; simp [Event.isStoreUpdate, Event.isUpdateBackend, Event.isUpdateProduct])
  refine ⟨?_, ?_, ?_, ?_, ?_, Reconcile_on_defaults_st env st req b hget hdump hdel hfin hdef⟩
  · rw [htr, List.countP_append, hpre]
    simp [List.countP_cons, Event.isStoreUpdate, Event.isUpdateBackend, Event.isUpdateProduct]
  · rw [htr]
    simp
  · intro e he
    rw [htr] at he
    rcases List.mem_append.1 he with h | h
    · rcases Reconcile_head_events env req b e h with h1 | ⟨err, h1⟩ <;> (rw [h1]; rfl)
    · simp only [List.mem_cons, List.mem_singleton, List.not_mem_nil, or_false] at h
      rcases h with h | h <;> (rw [h]; rfl)
  · intro h
    rw [hres, h]
  · intro err h
    rw [hres, h]

theorem Reconcile_persists_defaults_witness :
    (Reconcile defaultingScenario.env 0 demoRequest).result
        = .returned ({ Requeue := true }, none) ∧
      (Reconcile defaultingScenario.env 0 demoRequest).st
        = (defaultingScenario.env.updateBackend 0
            (defaultingScenario.env.setDefaults liveBackend).1).2 ∧
      (Reconcile defaultingScenario.env 0 demoRequest).st = 1 :=
  ⟨(Reconcile_persists_defaults defaultingScenario.env 0 demoRequest liveBackend rfl
      (by decide) (by decide) (by decide) (by decide)).2.2.2.1 (by decide),
    (Reconcile_persists_defaults defaultingScenario.env 0 demoRequest liveBackend rfl
      (by decide) (by decide) (by decide) (by decide)).2.2.2.2.2,
    by decide⟩

/-- C11 (failing input): a backend with deletion-timestamp set, the finalizer
present and no remote ID in its status makes `removeBackend` panic on
`*backend.Status.ID` (line 240) once its dependents are updated: it returns
neither nil nor an error, no `DeleteBackendApi` call is made, and `Reconcile`
ends in the same panic without a finalizer update. -/
theorem removeBackend_unsynced_panics :
    unsyncedDyingBackend.DeletionTimestamp.isSome = true ∧
    ContainsFinalizer unsyncedDyingBackend backendFinalizer = true ∧
    unsyncedDyingBackend.Status.ID = none ∧
    (removeBackend (quietScenario unsyncedDyingBackend).env 0 unsyncedDyingBackend).result
      = .panicked "invalid memory address or nil pointer dereference" ∧
    (removeBackend (quietScenario unsyncedDyingBackend).env 0 unsyncedDyingBackend).trace
      = [Event.lookupProviderAccount "ns" none none, Event.portaClient none,
          Event.list "ns" none,
          Event.lookupProviderAccount "ns" none none,
          Event.lookupProviderAccount "ns" none none,
          Event.lookupProviderAccount "ns" (some "tenant") none,
          Event.lookupProviderAccount "ns" none none,
          Event.lookupProviderAccount "ns" (some "missing") (some (Err.notFound "secret")),
          Event.lookupProviderAccount "ns" none none,
          Event.updateProduct (detachBackend productA unsyncedDyingBackend) none,
          Event.updateProduct (detachBackend productE unsyncedDyingBackend) none] ∧
    (Reconcile (quietScenario unsyncedDyingBackend).env 0 demoRequest).result
      = .panicked "invalid memory address or nil pointer dereference" ∧
    ∀ e ∈ (Reconcile (quietScenario unsyncedDyingBackend).env 0 demoRequest).trace,
      e.isUpdateBackend = false ∧ e.isDeleteBackendApi = false :=
  ⟨by decide, by decide, by decide, by decide, by decide, by decide, by decide⟩

theorem Reconcile_get_failure {σ : Type} (env : Env σ) (st : σ) (req : Request) (err : Err)
    (hget : env.get st req = .error err) :
    (Reconcile env st req).result
      = (if IsNotFound err then .returned ({}, none) else .returned ({}, some err)) := by
  unfold Reconcile
  simp only [hget]
  split <;> rfl

theorem deletePath_result_shape {σ : Type} (env : Env σ) (st : σ) (b : Backend) :
    (∃ msg, (deletePath env st b).result = .panicked msg) ∨
    ∃ oerr, (deletePath env st b).result = .returned ({}, oerr) := by
  unfold deletePath
  dsimp only
  split
  · exact Or.inl ⟨_, rfl⟩
  · exact Or.inr ⟨_, rfl⟩
  · split
    · exact Or.inr ⟨_, rfl⟩
    · exact Or.inr ⟨_, rfl⟩

theorem decideRequeue_result_shape (reconcileErr : Option Err) (statusResult : Result)
    (statusUpdateErr : Option Err) :
    (∃ oerr, (decideRequeue reconcileErr statusResult statusUpdateErr).1 = ({}, oerr)) ∨
    ((decideRequeue reconcileErr statusResult statusUpdateErr).1 = (statusResult, none) ∧
      statusResult.Requeue = true) := by
  unfold decideRequeue
  cases statusUpdateErr with
  | some sErr => cases reconcileErr <;> exact Or.inl ⟨_, rfl⟩
  | none =>
    dsimp only
    cases hrq : statusResult.Requeue with
    | true => exact Or.inr ⟨by simp, rfl⟩
    | false =>
      cases reconcileErr with
      | none => exact Or.inl ⟨none, by simp⟩
      | some rErr =>
        cases hinv : IsInvalidSpecError rErr
        · exact Or.inl ⟨some rErr, by simp [hinv]⟩
        · exact Or.inl ⟨none, by simp [hinv]⟩

theorem Reconcile_result_shape {σ : Type} (env : Env σ) (st : σ) (req : Request) :
    (∃ msg, (Reconcile env st req).result = .panicked msg) ∨
    (∃ oerr, (Reconcile env st req).result = .returned ({}, oerr)) ∨
    ∃ res, (Reconcile env st req).result = .returned (res, none) := by
  cases hget : env.get st req with
  | error err =>
    rw [Reconcile_get_failure env st req err hget]
    split
    · exact Or.inr (Or.inl ⟨none, rfl⟩)
    · exact Or.inr (Or.inl ⟨some err, rfl⟩)
  | ok b =>
    cases hd : (debugDump env b).1 with
    | some err =>
      exact Or.inr (Or.inl ⟨some err, (Reconcile_dump_failure env st req b err hget hd).1⟩)
    | none =>
      cases hfin : ContainsFinalizer b backendFinalizer with
      | false =>
        cases hdel : b.DeletionTimestamp with
        | some t =>
          exact Or.inr (Or.inl ⟨none,
            (Reconcile_on_deleted env st req b hget hd (by simp [hdel]) hfin).1⟩)
        | none =>
          exact Or.inr (Or.inl ⟨_,
            (Reconcile_on_missing_finalizer env st req b hget hd hdel hfin).1⟩)
      | true =>
        cases hdel : b.DeletionTimestamp with
        | some t =>
          rw [(Reconcile_on_delete_path env st req b hget hd (by simp [hdel]) hfin).1]
          rcases deletePath_result_shape env st b with ⟨msg, h⟩ | ⟨oerr, h⟩
          · exact Or.inl ⟨msg, h⟩
          · exact Or.inr (Or.inl ⟨oerr, h⟩)
        | none =>
          cases hdef : (env.setDefaults b).2 with
          | true =>
            rw [(Reconcile_on_defaults env st req b hget hd hdel hfin hdef).1]
            cases (env.updateBackend st (env.setDefaults b).1).1 with
            | some err => exact Or.inr (Or.inl ⟨_, rfl⟩)
            | none => exact Or.inr (Or.inr ⟨_, rfl⟩)
          | false =>
            rw [(Reconcile_sync_outcome env st req b ⟨hget, hd, hdel, hfin, hdef⟩).1]
            rcases decideRequeue_result_shape (syncError env st b) (statusOutcome env st b).1
              (statusOutcome env st b).2 with ⟨oerr, h⟩ | ⟨h, _⟩
            · exact Or.inr (Or.inl ⟨oerr, by rw [h]⟩)
            · exact Or.inr (Or.inr ⟨_, by rw [h]⟩)

/-- C12: for every request and every behaviour of the store, remote and status
collaborators, a returning `Reconcile` never pairs a non-nil error with a
requeue request: a non-nil error comes with the zero `Result`, and
`Requeue = true` comes only with a nil error. -/
theorem Reconcile_error_excludes_requeue {σ : Type} (env : Env σ) (st : σ) (req : Request)
    (res : Result) (oerr : Option Err)
    (hret : (Reconcile env st req).result = .returned (res, oerr)) :
    (oerr ≠ none → res = {}) ∧ (res.Requeue = true → oerr = none) := by
  rcases Reconcile_result_shape env st req with ⟨msg, h⟩ | ⟨e1, h⟩ | ⟨r1, h⟩
  · rw [h] at hret; cases hret
  · rw [h] at hret
    cases hret
    exact ⟨fun _ => rfl, fun hq => by cases hq⟩
  · rw [h] at hret
    cases hret
    exact ⟨fun hne => absurd rfl hne, fun _ => rfl⟩

theorem Reconcile_error_excludes_requeue_witness :
    (Reconcile transientStatusFailureScenario.env 0 demoRequest).result
        = .returned ({}, some (Err.errorf2
            "Failed to sync backend: %v. Failed to update backend status: %w"
            (Err.other "connection refused") (Err.other "conflict"))) ∧
      ((some (Err.errorf2 "Failed to sync backend: %v. Failed to update backend status: %w"
          (Err.other "connection refused") (Err.other "conflict")) ≠ none →
          ({} : Result) = {}) ∧
        (({} : Result).Requeue = true →
          some (Err.errorf2 "Failed to sync backend: %v. Failed to update backend status: %w"
            (Err.other "connection refused") (Err.other "conflict")) = none)) :=
  ⟨by decide,
    Reconcile_error_excludes_requeue transientStatusFailureScenario.env 0 demoRequest {}
      (some (Err.errorf2 "Failed to sync backend: %v. Failed to update backend status: %w"
        (Err.other "connection refused") (Err.other "conflict"))) (by decide)⟩

theorem removeBackendLoop_written {σ : Type} (env : Env σ) (b : Backend) (st : σ)
    (ps : List Product) (q : Product) (uerr : Option Err)
    (hw : Event.updateProduct q uerr ∈ (removeBackendLoop env b st ps).trace) :
    ∃ p ∈ ps, q = detachBackend p b := by
  induction ps generalizing st with
  | nil => simp [removeBackendLoop] at hw
  | cons p rest ih =>
    unfold removeBackendLoop at hw
    dsimp only at hw
    cases h : (env.updateProduct st (detachBackend p b)).1 with
    | some err =>
      simp only [h, List.mem_singleton, Event.updateProduct.injEq] at hw
      exact ⟨p, List.mem_cons_self _ _, hw.1⟩
    | none =>
      simp only [h, List.mem_cons, Event.updateProduct.injEq] at hw
      rcases hw with h1 | h1
      · exact ⟨p, List.mem_cons_self _ _, h1.1⟩
      · obtain ⟨p1, hp1, hq⟩ := ih _ h1
        exact ⟨p1, List.mem_cons_of_mem _ hp1, hq⟩

theorem mapDelete_mem (m : List (String × String)) (key k v : String) :
    (k, v) ∈ mapDelete m key ↔ (k, v) ∈ m ∧ k ≠ key := by
  unfold mapDelete
  simp [List.mem_filter]

/-- C13: every product that `removeBackend` writes to the store is a dependent
returned by `fetchTenantProductCRs` for the listed products, written with the
same namespace, name and account reference, and with `BackendUsages` equal to
its original usages minus the entries keyed by the backend's system name:
every other usage entry is kept, in order. -/
theorem removeBackend_writes_detached_dependents {σ : Type} (env : Env σ) (st : σ)
    (b : Backend) (q : Product) (uerr : Option Err)
    (hw : Event.updateProduct q uerr ∈ (removeBackend env st b).trace) :
    ∃ items, env.list st b.Namespace = .ok items ∧
      ∃ p ∈ (fetchTenantProductCRs env st items b).result.1,
        q = detachBackend p b ∧
        q.Namespace = p.Namespace ∧ q.Name = p.Name ∧
        q.Spec.ProviderAccountRef = p.Spec.ProviderAccountRef ∧
        q.Spec.BackendUsages
          = p.Spec.BackendUsages.filter (fun kv => kv.1 != b.Spec.SystemName) ∧
        ∀ k v, (k, v) ∈ q.Spec.BackendUsages ↔
          (k, v) ∈ p.Spec.BackendUsages ∧ k ≠ b.Spec.SystemName := by
  rcases removeBackend_shape env st b with ⟨e1, _, _, ht⟩ | ⟨pa, e2, _, _, _, ht⟩ |
    ⟨pa, c, e3, _, _, _, _, ht⟩ | ⟨pa, c, items, _, _, hli, _, ht⟩
  · rw [ht] at hw; simp at hw
  · rw [ht] at hw; simp at hw
  · rw [ht] at hw; simp at hw
  · rw [ht] at hw
    simp only [List.mem_append, List.mem_cons, List.mem_singleton, List.not_mem_nil,
      or_false] at hw
    have hloop : Event.updateProduct q uerr ∈ (detachDependents env st items b).trace := by
      rcases hw with (((h | h | h) | h) | h) | h
      · cases h
      · cases h
      · cases h
      · obtain ⟨ns, ref, err, h1⟩ := fetchTenantProductCRs_trace env st items b _ h
        cases h1
      · exact h
      · revert h
        cases (detachDependents env st items b).result with
        | some e4 => simp
        | none =>
          cases b.Status.ID with
          | none => simp
          | some id => simp
    obtain ⟨p, hp, hq⟩ := removeBackendLoop_written env b _ _ q uerr hloop
    refine ⟨items, hli, p, hp, hq, ?_, ?_, ?_, ?_, ?_⟩
    · rw [hq]; rfl
    · rw [hq]; rfl
    · rw [hq]; rfl
    · rw [hq]; rfl
    · intro k v
      rw [hq]
      exact mapDelete_mem p.Spec.BackendUsages b.Spec.SystemName k v

theorem removeBackend_writes_detached_dependents_witness :
    Event.updateProduct
        { productA with Spec := { productA.Spec with BackendUsages := [("other", "/o")] } } none
        ∈ (removeBackend (quietScenario dyingBackend).env 0 dyingBackend).trace ∧
      ∃ items, (quietScenario dyingBackend).env.list 0 dyingBackend.Namespace = .ok items ∧
        ∃ p ∈ (fetchTenantProductCRs (quietScenario dyingBackend).env 0 items
            dyingBackend).result.1,
          ({ productA with Spec := { productA.Spec with BackendUsages := [("other", "/o")] } }
              : Product) = detachBackend p dyingBackend :=
  ⟨by decide,
    (removeBackend_writes_detached_dependents (quietScenario dyingBackend).env 0 dyingBackend
      { productA with Spec := { productA.Spec with BackendUsages := [("other", "/o")] } } none
      (by decide)).imp
      (fun _ h => ⟨h.1, h.2.imp (fun _ h2 => ⟨h2.1, h2.2.1⟩)⟩)⟩

end BackendController
